import Mathlib

/-!
Verification development for the core memory subsystem of the 9x kernel:
the physical page allocator (`page_allocation.rs`), the x86_64 page table
entry layout (`paging.rs`), the user page mapper and its rewindable tasks
(`user_page_mapping.rs`), and the VMA red-black interval tree (`vma.rs`).

Machine integers (`u64` / `usize`) are modelled as `Nat` with explicit
masking where the source masks; physical memory is modelled as a function
from frame addresses to 512-entry tables (the 64-bit entry view of a
4096-byte frame) plus, separately, a byte view used by the buffer-copy
routine.  Fallible operations return `Except`/`Option`; a Rust panic is an
explicit error value.  Loops whose bound is not structural take fuel.
-/

deriving instance DecidableEq for Except

namespace NineX

/-- Page size in bytes, from `paging.rs`. -/
def PAGE_SIZE : Nat := 4096

/-- Mask of the physical-address field of a page table entry (bits 12..51). -/
def ADDR_MASK : Nat := 0x000FFFFFFFFFF000

/-- Align an address down to the nearest page boundary (`align_to_page`). -/
def align_to_page (address : Nat) : Nat :=
  address - address % 4096

/-- The four 9-bit level index masks of `UserPageMapper::LEVEL_MASKS`. -/
def LEVEL_MASKS : List Nat :=
  [0xFF8000000000, 0x007FC0000000, 0x00003FE00000, 0x1FF000]

/-- Index selected at walk level `i` (0 = PML4 .. 3 = PT) for a virtual
address, as computed by `((level_mask & virt) >> ((3 - i) * 9 + 12)) % 512`. -/
def levelIndex (i virt : Nat) : Nat :=
  (((LEVEL_MASKS.getD i 0) &&& virt) >>> ((3 - i) * 9 + 12)) % 512

namespace PageTableEntry

/-- Present bit (bit 0) of a page table entry. -/
def present (e : Nat) : Bool := e.testBit 0

/-- Writable bit (bit 1). -/
def writable (e : Nat) : Bool := e.testBit 1

/-- User-accessible bit (bit 2), named as in the source. -/
def user_accessable (e : Nat) : Bool := e.testBit 2

/-- Huge-page bit (bit 7). -/
def huge_page (e : Nat) : Bool := e.testBit 7

/-- No-execute bit (bit 63). -/
def no_execute (e : Nat) : Bool := e.testBit 63

/-- Physical address field, sign-extended from bit 51
(`PageTableEntry::address`). -/
def address (e : Nat) : Nat :=
  let addrUnextended := (e / 4096) % (2 ^ 40) * 4096
  if addrUnextended.testBit 51 then addrUnextended ||| 0xFFF0000000000000
  else addrUnextended

/-- The `PageTableEntry::ZERO` constant. -/
def ZERO : Nat := 0

/-- The `PageTableEntry::READ` constant: present with no-execute set. -/
def READ : Nat := 1 ||| (1 <<< 63)

/-- The `PageTableEntry::READ_WRITE` constant: present, writable, no-execute. -/
def READ_WRITE : Nat := 3 ||| (1 <<< 63)

/-- The `PageTableEntry::READ_WRITE_EXECUTE` constant: present and writable
with no-execute clear.  Note that `user_accessable` is `false` here. -/
def READ_WRITE_EXECUTE : Nat := 3

/-- The `replace_addr_with` operation on an entry. -/
def replace_addr_with (e addr : Nat) : Nat :=
  (addr &&& ADDR_MASK) ||| (e &&& 0x80000000000001FF)

end PageTableEntry

/-- A page table is the 512-entry u64 view of a 4096-byte frame. -/
def PageTable := List Nat

/-- The all-zero page table. -/
def zeroTable : PageTable := List.replicate 512 0

/-- Read entry `i` of a table. -/
def tableGet (t : PageTable) (i : Nat) : Nat := t.getD i 0

/-- Write entry `i` of a table. -/
def tableSet (t : PageTable) (i v : Nat) : PageTable := t.set i v

/-!
Physical page allocator, from `page_allocation.rs` (`PageAllocatorInternal`).
The bitmap is a list of bytes; within a byte the most significant bit is the
lowest frame, exactly as in the source (`0x80 >> bit_index`).
-/

/-- State of `PageAllocatorInternal`: the byte bitmap, the total page count
and the running free page count. -/
structure PPA where
  memory_bitmap : List Nat
  total_pages : Nat
  free_pages : Nat
deriving Repr, DecidableEq

namespace PPA

/-- Bytes of mapped memory covered by one bitmap byte
(`BYTE_RATIO = PAGE_SIZE * 8`). -/
def byteRatio : Nat := PAGE_SIZE * 8

/-- Number of leading one bits of a byte, i.e. `(!byte).leading_zeros()`
restricted to 8 bits: the index of the first clear bit from the MSB. -/
def firstClearBit (byte : Nat) : Nat :=
  if ¬ byte.testBit 7 then 0
  else if ¬ byte.testBit 6 then 1
  else if ¬ byte.testBit 5 then 2
  else if ¬ byte.testBit 4 then 3
  else if ¬ byte.testBit 3 then 4
  else if ¬ byte.testBit 2 then 5
  else if ¬ byte.testBit 1 then 6
  else 7

/-- Helper scanning the bitmap bytes for one that is not `0xFF`, mirroring
the loop of `find_and_reserve_page`.  Returns the updated bitmap together
with the byte and bit index chosen. -/
def scanReserve : List Nat → Option (List Nat × Nat × Nat)
  | [] => none
  | byte :: rest =>
    if byte ≠ 0xFF then
      let bitIndex := firstClearBit byte
      some ((byte ||| (0x80 >>> bitIndex)) :: rest, 0, bitIndex)
    else
      match scanReserve rest with
      | none => none
      | some (rest', byteIndex, bitIndex) =>
        some (byte :: rest', byteIndex + 1, bitIndex)

/-- The `find_and_reserve_page` operation: first-fit scan for a clear bit,
set it, decrement the free count, and return the frame's physical address.
(The source also zeroes the frame; that effect lives in `MState.reservePage`.)
Returns `none` for the `Err(())` out-of-pages case. -/
def find_and_reserve_page (s : PPA) : Option (PPA × Nat) :=
  match scanReserve s.memory_bitmap with
  | none => none
  | some (bitmap', byteIndex, bitIndex) =>
    let addr := byteIndex * byteRatio + bitIndex * PAGE_SIZE
    some ({ s with memory_bitmap := bitmap', free_pages := s.free_pages - 1 }, addr)

/-- The `free_page` operation: clears the bit for `address`; an index at or
beyond the total page count is silently ignored.  Note the free count is
incremented unconditionally on the in-range path. -/
def free_page (s : PPA) (address : Nat) : PPA :=
  let byteIndex := address / byteRatio
  let bitOffset := (address / PAGE_SIZE) % 8
  if byteIndex * 8 + bitOffset ≥ s.total_pages then s
  else
    { s with
      memory_bitmap :=
        s.memory_bitmap.set byteIndex ((s.memory_bitmap.getD byteIndex 0) &&& (255 - (0x80 >>> bitOffset)))
      free_pages := s.free_pages + 1 }

/-- The derived `used_pages` quantity (`total_pages - free_pages`). -/
def used_pages (s : PPA) : Nat := s.total_pages - s.free_pages

/-- Whether the bitmap bit of page index `i` is set (page reserved). -/
def bitSet (s : PPA) (i : Nat) : Bool :=
  (s.memory_bitmap.getD (i / 8) 0).testBit (7 - i % 8)

/-- Number of clear bits among the 8 bits of a byte (`byte.count_zeros()`
for a `u8`). -/
def countZerosByte (byte : Nat) : Nat :=
  (List.range 8).foldr (fun i acc => (if byte.testBit i then 0 else 1) + acc) 0

/-- Total number of clear bits in the bitmap, as counted by
`PageAllocatorInternal::new` (`count_zeros` summed over all bytes). -/
def countZeros (bitmap : List Nat) : Nat :=
  bitmap.foldr (fun byte acc => countZerosByte byte + acc) 0

end PPA

/-!
Machine state: the physical page allocator together with the contents of
physical memory.  `mem` is the 512-entry u64 view of each frame (indexed by
frame address); `bytes` is the byte view, used only by
`map_mem_copy_from_buffer`'s data writes.
-/

/-- Combined machine state for page-mapping operations. -/
structure MState where
  ppa : PPA
  mem : Nat → PageTable
  bytes : Nat → List Nat

namespace MState

/-- Reserve a frame through the allocator; the source's
`find_and_reserve_page` also zeroes the frame's memory. -/
def reservePage (s : MState) : Option (MState × Nat) :=
  match s.ppa.find_and_reserve_page with
  | none => none
  | some (ppa', addr) =>
    some ({ ppa := ppa',
            mem := fun f => if f = addr then zeroTable else s.mem f,
            bytes := fun f => if f = addr then List.replicate 4096 0 else s.bytes f },
          addr)

/-- Free a frame (`page_allocation::free_page`); memory contents are not
touched by a free. -/
def freePage (s : MState) (addr : Nat) : MState :=
  { s with ppa := s.ppa.free_page addr }

/-- Read entry `idx` of the table in frame `frame`. -/
def readEntry (s : MState) (frame idx : Nat) : Nat :=
  tableGet (s.mem frame) idx

/-- Write entry `idx` of the table in frame `frame`. -/
def writeEntry (s : MState) (frame idx v : Nat) : MState :=
  { s with mem := fun f => if f = frame then tableSet (s.mem frame) idx v else s.mem f }

end MState

/-!
User page mapper, from `kernel/src/arch/x86_64/user_page_mapping.rs`.
-/

/-- Error type of `UserPageMapper` operations. -/
inductive UserPageMapperError
  | PageAlreadyExists
  | OutOfMemory
deriving Repr, DecidableEq

namespace UserPageMapper

/-- Construction (`UserPageMapper::new`): reserve a PML4 frame, clear its
lower half and copy the kernel PML4's upper half into it. -/
def new (s : MState) (kernelPml4 : PageTable) : Option (MState × Nat) :=
  match s.reservePage with
  | none => none
  | some (s1, pml4) =>
    let table : PageTable := List.replicate 256 0 ++ (kernelPml4.drop 256).take 256
    some ({ s1 with mem := fun f => if f = pml4 then table else s1.mem f }, pml4)

/-- Intermediate result of the walk loop of `map_blank_page`: normal
completion, the `break 'blk Err(OutOfMemory)` path (which runs the parent
cleanup), or the early `return Err(PageAlreadyExists)` (which skips it). -/
inductive BlankRes
  | ok (s : MState) (pages : Nat)
  | oomBreak (s : MState) (pages : Nat) (parents : List Nat)
  | alreadyReturn (s : MState) (pages : Nat)

/-- The per-level walk loop of `map_blank_page`.  `pages` is the
`pages_used` counter (incremented before each reservation attempt, exactly
as in the source); `parents` is `parent_pages_created`. -/
def mapBlankPageLoop (virt childFlags : Nat) :
    List Nat → Nat → MState → Nat → List Nat → BlankRes
  | [], _, s, pages, _ => .ok s pages
  | i :: rest, current, s, pages, parents =>
    let idx := levelIndex i virt
    let entry := s.readEntry current idx
    if PageTableEntry.present entry then
      if i = 3 then .alreadyReturn s pages
      else mapBlankPageLoop virt childFlags rest (PageTableEntry.address entry) s pages parents
    else
      let pages' := pages + 1
      match s.reservePage with
      | none => .oomBreak s pages' parents
      | some (s1, newPage) =>
        let parents' := if i < 3 then parents ++ [newPage] else parents
        let newEntry := (newPage &&& ADDR_MASK) |||
          (if i < 3 then PageTableEntry.READ_WRITE_EXECUTE else childFlags)
        let s2 := s1.writeEntry current idx newEntry
        mapBlankPageLoop virt childFlags rest (PageTableEntry.address newEntry) s2 pages' parents'

/-- `UserPageMapper::map_blank_page`: walk PML4→PT creating missing
entries; on `OutOfMemory` free every parent created by this call and
decrement `pages_used` once per freed parent.  Returns the result, the new
state and the new `pages_used` value. -/
def map_blank_page (s : MState) (pml4 virt flags pagesUsed : Nat) :
    Except UserPageMapperError Unit × MState × Nat :=
  let childFlags := (flags &&& 0x8000000000000007) ||| 5
  match mapBlankPageLoop virt childFlags [0, 1, 2, 3] pml4 s pagesUsed [] with
  | .ok s' pages => (.ok (), s', pages)
  | .alreadyReturn s' pages => (.error .PageAlreadyExists, s', pages)
  | .oomBreak s' pages parents =>
    let cleaned := parents.foldl (fun (sp : MState × Nat) p => (sp.1.freePage p, sp.2 - 1)) (s', pages)
    (.error .OutOfMemory, cleaned.1, cleaned.2)

/-- The downward walk of `unmap_page`, collecting the `(index, table
address)` pairs; returns `none` if some entry on the path is not present
(the `return 0` case). -/
def unmapWalk (s : MState) (virt : Nat) : List Nat → Nat → Option (List (Nat × Nat))
  | [], _ => some []
  | i :: rest, current =>
    let idx := levelIndex i virt
    let entry := s.readEntry current idx
    if ¬ PageTableEntry.present entry then none
    else
      match unmapWalk s virt rest (PageTableEntry.address entry) with
      | none => none
      | some tl => some ((idx, current) :: tl)

/-- The upward freeing loop of `unmap_page` over the reversed walk list.
It always frees the current entry's target and clears the entry; the
source's "is the current table empty" scan computes nothing that is used
(its `break` leaves only the scan itself), so the loop stops only via
`tables_checked >= free_table_check_depth` or the end of the list. -/
def unmapFree (depth : Nat) : List (Nat × Nat) → Nat → MState → Nat → MState × Nat
  | [], _, s, freed => (s, freed)
  | (idx, tableAddr) :: rest, checked, s, freed =>
    let entry := s.readEntry tableAddr idx
    let s1 := (s.writeEntry tableAddr idx PageTableEntry.ZERO).freePage (PageTableEntry.address entry)
    let freed' := freed + 1
    if checked ≥ depth then (s1, freed')
    else unmapFree depth rest (checked + 1) s1 freed'

/-- `UserPageMapper::unmap_page`: walk down collecting the path, then free
from the leaf upward for at most `free_table_check_depth + 1` levels.
Returns the state and the number of pages freed. -/
def unmap_page (s : MState) (pml4 virt depth : Nat) : MState × Nat :=
  let virt' := virt &&& ADDR_MASK
  match unmapWalk s virt' [0, 1, 2, 3] pml4 with
  | none => (s, 0)
  | some tableAddresses => unmapFree depth tableAddresses.reverse 0 s 0

/-- Error type of `map_mem_copy_from_buffer`: the surfaced `ReservePageError`
and the implicit panic of `copy_from_slice` when the destination and source
slice lengths differ. -/
inductive CopyError
  | OutOfPages
  | PanicSliceLenMismatch
deriving Repr, DecidableEq

/-- Number of pages covered, `((align(virt + size - 1) - align(virt)) >> 12) + 1`. -/
def numPagesCovering (virt size : Nat) : Nat :=
  ((align_to_page (virt + (size - 1)) - align_to_page virt) >>> 12) + 1

/-- The per-level inner loop of `map_mem_copy_from_buffer` for one page:
missing parents are created with `READ_WRITE_EXECUTE`, a missing leaf with
`READ`; at the leaf the buffer bytes are copied at `start_offset` and the
rest of the page is zeroed.  `copy_from_slice` panics unless the source
slice `buffer[data_written..]` has exactly `data_to_write` bytes. -/
def copyLevelLoop (buffer : List Nat) (virt : Nat) :
    List Nat → Nat → MState → Nat → Nat → Except CopyError (MState × Nat × Nat)
  | [], _, s, so, dw => .ok (s, so, dw)
  | i :: rest, current, s, so, dw =>
    let idx := levelIndex i virt
    let entry0 := s.readEntry current idx
    let step : Except CopyError (MState × Nat) :=
      if PageTableEntry.present entry0 then .ok (s, entry0)
      else
        match s.reservePage with
        | none => .error .OutOfPages
        | some (s1, newPage) =>
          let newEntry := (newPage &&& ADDR_MASK) |||
            (if i < 3 then PageTableEntry.READ_WRITE_EXECUTE else PageTableEntry.READ)
          .ok (s1.writeEntry current idx newEntry, newEntry)
    match step with
    | .error e => .error e
    | .ok (s1, entry) =>
      if i = 3 then
        let dataToWrite := Nat.min (buffer.length - dw) (4096 - so)
        if buffer.length - dw ≠ dataToWrite then .error .PanicSliceLenMismatch
        else
          let frame := PageTableEntry.address entry
          let oldPage := s1.bytes frame
          let newPage := (oldPage.take so) ++ ((buffer.drop dw).take dataToWrite) ++
            List.replicate (4096 - so - dataToWrite) 0
          let s2 := { s1 with bytes := fun f => if f = frame then newPage else s1.bytes f }
          copyLevelLoop buffer virt rest (PageTableEntry.address entry) s2 0 (dw + dataToWrite)
      else
        copyLevelLoop buffer virt rest (PageTableEntry.address entry) s1 so dw

/-- `UserPageMapper::map_mem_copy_from_buffer`. -/
def map_mem_copy_from_buffer (s : MState) (pml4 virtStart size : Nat) (buffer : List Nat) :
    Except CopyError MState :=
  let numPages := numPagesCovering virtStart size
  let rec go : List Nat → MState → Nat → Nat → Except CopyError MState
    | [], s', _, _ => .ok s'
    | pageI :: rest, s', so, dw =>
      let virt := virtStart + (pageI <<< 12)
      match copyLevelLoop buffer virt [0, 1, 2, 3] pml4 s' so dw with
      | .error e => .error e
      | .ok (s'', so', dw') => go rest s'' so' dw'
  go (List.range numPages) s (virtStart &&& 0xFFF) 0

/-- `UserPageMapper::unmap_mem`: per page, walk all four levels; parent
levels follow `entry.address()` without a present check; at the leaf, a
present entry has its target freed and is cleared. -/
def unmapMemLevelLoop (virt : Nat) : List Nat → Nat → MState → MState
  | [], _, s => s
  | i :: rest, current, s =>
    let idx := levelIndex i virt
    let entry := s.readEntry current idx
    if i = 3 then
      if ¬ PageTableEntry.present entry then s
      else (s.writeEntry current idx PageTableEntry.ZERO).freePage (PageTableEntry.address entry)
    else
      unmapMemLevelLoop virt rest (PageTableEntry.address entry) s

/-- `UserPageMapper::unmap_mem` outer loop. -/
def unmap_mem (s : MState) (pml4 startAddress size : Nat) : MState :=
  let actualStart := startAddress &&& ADDR_MASK
  let numPages := numPagesCovering startAddress size
  (List.range numPages).foldl
    (fun s' pageI => unmapMemLevelLoop (actualStart + (pageI <<< 12)) [0, 1, 2, 3] pml4 s') s

/-- Per-page level loop of `change_flags`; like `unmap_mem` the parent
levels follow `entry.address()` without a present check. -/
def changeFlagsLevelLoop (virt actualFlags : Nat) : List Nat → Nat → MState → MState
  | [], _, s => s
  | i :: rest, current, s =>
    let idx := levelIndex i virt
    let entry := s.readEntry current idx
    if i = 3 then
      if ¬ PageTableEntry.present entry then s
      else s.writeEntry current idx ((PageTableEntry.address entry) ||| actualFlags)
    else
      changeFlagsLevelLoop virt actualFlags rest (PageTableEntry.address entry) s

/-- `UserPageMapper::change_flags`. -/
def change_flags (s : MState) (pml4 startAddress size flags : Nat) : MState :=
  let actualStart := startAddress &&& ADDR_MASK
  let actualFlags := (flags &&& 0x80000000000001FE) ||| 1
  let numPages := numPagesCovering startAddress size
  (List.range numPages).foldl
    (fun s' pageI =>
      changeFlagsLevelLoop (actualStart + (pageI <<< 12)) actualFlags [0, 1, 2, 3] pml4 s') s

/-- Per-page level loop of `change_flags_relaxing`. -/
def changeFlagsRelaxingLevelLoop (virt relaxationFlags noExecuteMask : Nat) :
    List Nat → Nat → MState → MState
  | [], _, s => s
  | i :: rest, current, s =>
    let idx := levelIndex i virt
    let entry := s.readEntry current idx
    if i = 3 then
      if ¬ PageTableEntry.present entry then s
      else s.writeEntry current idx
        (((PageTableEntry.address entry) ||| relaxationFlags) &&& noExecuteMask)
    else
      changeFlagsRelaxingLevelLoop virt relaxationFlags noExecuteMask rest
        (PageTableEntry.address entry) s

/-- `UserPageMapper::change_flags_relaxing`. -/
def change_flags_relaxing (s : MState) (pml4 startAddress size flags : Nat) : MState :=
  let actualStart := startAddress &&& ADDR_MASK
  let relaxationFlags := (flags &&& 0x6) ||| 1
  let noExecuteMask := if flags &&& (1 <<< 63) = 0 then 2 ^ 64 - 1 - 2 ^ 63 else 2 ^ 64 - 1
  let numPages := numPagesCovering startAddress size
  (List.range numPages).foldl
    (fun s' pageI =>
      changeFlagsRelaxingLevelLoop (actualStart + (pageI <<< 12)) relaxationFlags noExecuteMask
        [0, 1, 2, 3] pml4 s') s

/-- `UserPageMapper::free_page_tree` with `levelsLeft = 3 - level`; `none`
models the `todo!()` panic on a huge-page entry. -/
def freePageTree : Nat → Nat → MState → Option MState
  | levelsLeft, node, s =>
    if ¬ PageTableEntry.present node then some s
    else if PageTableEntry.huge_page node then none
    else
      let addr := PageTableEntry.address node
      match levelsLeft with
      | 0 => some (s.freePage addr)
      | n + 1 =>
        match (s.mem addr).foldl
          (fun acc e => acc.bind fun s' =>
            if PageTableEntry.present e then freePageTree n e s' else some s')
          (some s) with
        | none => none
        | some s' => some (s'.freePage addr)

/-- The `Drop` impl: free the page trees of the lower 256 PML4 entries; the
owned PML4 frame handle then frees the PML4 frame itself. -/
def dropMapper (s : MState) (pml4 : Nat) : Option MState :=
  match ((s.mem pml4).take 256).foldl
    (fun acc e => acc.bind fun s' =>
      if PageTableEntry.present e then freePageTree 3 e s' else some s')
    (some s) with
  | none => none
  | some s' => some (s'.freePage pml4)

end UserPageMapper

/-!
Rewindable bulk tasks.  `MapMemTask` is taken from
`kernel/src/arch/x86_64/user_page_mapping.rs`; `UnmapMemTask` is the
`kernel_rust` variant, which is the one `vma.rs` drives.  A task `run`
loop takes fuel (`none` = fuel exhausted, or the `panic!` on
`PageAlreadyExists`), and the `should_suspend` callback is modelled as a
predicate on the number of loop iterations performed so far.
-/

/-- Rust `Poll`. -/
inductive Poll (α : Type)
  | Ready (a : α)
  | Pending
deriving Repr, DecidableEq

/-- The `MapMemError` enum. -/
inductive MapMemError
  | OutOfMemory
deriving Repr, DecidableEq

/-- The `SegmentFlags` struct of `vma.rs`. -/
structure SegmentFlags where
  read : Bool
  write : Bool
  execute : Bool
deriving Repr, DecidableEq

/-- The `MapMemState` enum (the `flags` entry is precomputed in `new`). -/
inductive MapMemState
  | Mapping (pages_left : Nat) (flags : Nat)
  | FailRewinding (error : MapMemError)
deriving Repr, DecidableEq

/-- The `MapMemTask` struct. -/
structure MapMemTask where
  start_address : Nat
  current_address : Nat
  pages_allocated : Nat
  state : MapMemState
deriving Repr, DecidableEq

/-- Wrapping `usize` subtraction (64-bit). -/
def wrapSub64 (a b : Nat) : Nat :=
  (a + (2 ^ 64 - b % 2 ^ 64)) % 2 ^ 64

/-- The `free_table_check_depth` computation shared by the tasks: the first
level mask on which the two addresses differ gives `4 - i`, else 0. -/
def freeTableCheckDepth (page next : Nat) : Nat :=
  match (List.range 4).find?
    (fun i => (page &&& LEVEL_MASKS.getD i 0) ≠ (next &&& LEVEL_MASKS.getD i 0)) with
  | some i => 4 - i
  | none => 0

namespace MapMemTask

/-- `MapMemTask::new`: the page flags are built by `PageTableEntry::from_data`
with `user_accessable = flags.read`, `writable = flags.write`,
`no_execute = !flags.execute` and the remaining fields defaulted
(`present = true`). -/
def new (startAddress numPages : Nat) (flags : SegmentFlags) : MapMemTask :=
  { start_address := startAddress
    current_address := startAddress
    pages_allocated := 0
    state := .Mapping numPages
      (1 ||| (if flags.write then 2 else 0) ||| (if flags.read then 4 else 0) |||
        (if flags.execute then 0 else 1 <<< 63)) }

/-- `MapMemTask::run` against the mapper identified by `pml4`.  In the
`Mapping` state it maps blank pages forward; `OutOfMemory` switches to
`FailRewinding`, which unmaps backward (computing the check depth from the
level-mask XOR, 3 at the start address) until the start address is reached
and then returns `Err(OutOfMemory)`.  `PageAlreadyExists` panics (`none`). -/
def run (pml4 : Nat) (suspend : Nat → Bool) :
    Nat → Nat → MapMemTask → MState →
    Option (Poll (Except MapMemError Nat) × MapMemTask × MState)
  | 0, _, _, _ => none
  | fuel + 1, k, t, s =>
    if suspend k then some (.Pending, t, s)
    else
      match t.state with
      | .Mapping pagesLeft flags =>
        let page := t.current_address
        let next := page + 4096
        match UserPageMapper.map_blank_page s pml4 page flags t.pages_allocated with
        | (.ok (), s', pa') =>
          let t' := { t with
            current_address := next
            pages_allocated := pa'
            state := .Mapping (pagesLeft - 1) flags }
          if pagesLeft - 1 = 0 then some (.Ready (.ok pa'), t', s')
          else run pml4 suspend fuel (k + 1) t' s'
        | (.error .OutOfMemory, s', pa') =>
          let t' := { t with
            current_address := page - 4096
            pages_allocated := pa'
            state := .FailRewinding .OutOfMemory }
          run pml4 suspend fuel (k + 1) t' s'
        | (.error .PageAlreadyExists, _, _) => none
      | .FailRewinding err =>
        let page := t.current_address
        let next := page - 4096
        let depth := if page = t.start_address then 3 else freeTableCheckDepth page next
        let (s', freed) := UserPageMapper.unmap_page s pml4 page depth
        let t' := { t with
          current_address := next
          pages_allocated := wrapSub64 t.pages_allocated freed }
        if page = t.start_address then some (.Ready (.error err), t', s')
        else run pml4 suspend fuel (k + 1) t' s'

end MapMemTask

/-- The `UnmapMemTask` struct (`kernel_rust` variant). -/
structure UnmapMemTask where
  current_address : Nat
  pages_left : Nat
deriving Repr, DecidableEq

namespace UnmapMemTask

/-- `UnmapMemTask::new`. -/
def new (startAddress numPages : Nat) : UnmapMemTask :=
  { current_address := startAddress, pages_left := numPages }

/-- `UnmapMemTask::run` (`kernel_rust` variant): note that the source
advances with `self.current_address += 1` (one byte, not one page), and
that `pages_freed` is a local reset on every resumption. -/
def run (pml4 : Nat) (suspend : Nat → Bool) :
    Nat → Nat → Nat → UnmapMemTask → MState →
    Option (Poll Nat × UnmapMemTask × MState)
  | 0, _, _, _, _ => none
  | fuel + 1, k, pagesFreed, t, s =>
    if suspend k then some (.Pending, t, s)
    else
      let page := t.current_address
      let next := page + 4096
      let depth := if t.pages_left = 0 then 3 else freeTableCheckDepth page next
      let (s', freed) := UserPageMapper.unmap_page s pml4 page depth
      let pagesFreed' := pagesFreed + freed
      let t' : UnmapMemTask := { current_address := t.current_address + 1,
                                 pages_left := t.pages_left - 1 }
      if t.pages_left - 1 = 0 then some (.Ready pagesFreed', t', s')
      else run pml4 suspend fuel (k + 1) pagesFreed' t' s'

end UnmapMemTask

/-!
VMA tree, from `kernel_rust/src/vma.rs`.  The pointer graph of `Node`
values is embedded as a store from node ids to node values, a direct
translation of the arena of `NodeStorageList` (node storage pages are
abstracted to a fresh-id supply; the dedicated `temp_node` slot is id 0).
Every `unwrap`/`unreachable!`/failed `assert!` of the source, and fuel
exhaustion of an embedded loop, is `none`.
-/

/-- Highest user-space address (`arch::process::HIGHEST_USER_ADDRESS`). -/
def HIGHEST_USER_ADDRESS : Nat := 0x7FFFFFFFFFFF

/-- Node colors. -/
inductive NodeColor
  | Red
  | Black
deriving Repr, DecidableEq

/-- Branch child side. -/
inductive Side
  | Left
  | Right
deriving Repr, DecidableEq

/-- The `Not` impl on `Side`. -/
def Side.flip : Side → Side
  | .Left => .Right
  | .Right => .Left

/-- The `Node` enum: a branch (with `packed_fields` holding color, the
temp-null flag and the pivot), or an Empty/Used leaf.  Leaf `flags` is the
`NodeFlags` u32 (readable bit 0, writable 1, executable 2, locked 31). -/
inductive VNode
  | Branch (packed_fields max_empty_area_size : Nat) (parent : Option Nat) (left right : Nat)
  | LeafEmpty (size : Nat)
  | LeafUsed (flags : Nat)
deriving Repr, DecidableEq

/-- The locked bit of `NodeFlags`. -/
def NodeFlags.locked (flags : Nat) : Bool := flags.testBit 31

/-- The `From<SegmentFlags> for NodeFlags` conversion. -/
def NodeFlags.ofSegmentFlags (f : SegmentFlags) : Nat :=
  (if f.read then 1 else 0) ||| (if f.write then 2 else 0) ||| (if f.execute then 4 else 0)

/-- `BranchNode::new`: pack pivot, temp-null flag and color. -/
def packFields (pivot : Nat) (isTempNull : Bool) (color : NodeColor) : Nat :=
  (pivot - pivot % 4) + (if isTempNull then 2 else 0) + (if color = NodeColor.Black then 1 else 0)

/-- The tree state: root node id, the node store, and the fresh-id supply
standing in for the node storage pages.  Id 0 is the `temp_node` slot. -/
structure VMATree where
  root : Nat
  store : Nat → VNode
  nextId : Nat

namespace VMATree

/-- Write a node value into the store. -/
def write (t : VMATree) (i : Nat) (n : VNode) : VMATree :=
  { t with store := fun j => if j = i then n else t.store j }

/-- Allocate a fresh node (abstraction of `find_and_reserve_node`). -/
def allocNode (t : VMATree) (n : VNode) : VMATree × Nat :=
  ({ t with store := fun j => if j = t.nextId then n else t.store j, nextId := t.nextId + 1 },
    t.nextId)

/-- `NodePtr::free`: the freed slot is overwritten with the placeholder
node (`Node::placeholder()` = `Empty { size: 0 }`). -/
def freeNode (t : VMATree) (i : Nat) : VMATree :=
  t.write i (.LeafEmpty 0)

/-- `VMATree::new`: a single Empty leaf of size `HIGHEST_USER_ADDRESS`. -/
def new : VMATree :=
  { root := 1
    store := fun j => if j = 1 then .LeafEmpty HIGHEST_USER_ADDRESS else .LeafEmpty 0
    nextId := 2 }

/-- Pivot of a packed field (`packed_fields & !0b11`). -/
def pivotOfPacked (packed : Nat) : Nat := packed - packed % 4

/-- Color of a node id (`NodePtr::color`): leaves are black. -/
def colorOf (t : VMATree) (i : Nat) : NodeColor :=
  match t.store i with
  | .Branch packed _ _ _ _ => if packed % 2 = 1 then .Black else .Red
  | _ => .Black

/-- Whether the node is a branch. -/
def isBranch (t : VMATree) (i : Nat) : Bool :=
  match t.store i with
  | .Branch _ _ _ _ _ => true
  | _ => false

/-- Whether the node is a leaf. -/
def isLeaf (t : VMATree) (i : Nat) : Bool := ¬ t.isBranch i

/-- Whether the node is an Empty leaf. -/
def isEmptyLeaf (t : VMATree) (i : Nat) : Bool :=
  match t.store i with
  | .LeafEmpty _ => true
  | _ => false

/-- Whether the node is a Used leaf. -/
def isUsedLeaf (t : VMATree) (i : Nat) : Bool :=
  match t.store i with
  | .LeafUsed _ => true
  | _ => false

/-- Branch field projections; `none` models `unwrap_branch` on a leaf. -/
def branchFields (t : VMATree) (i : Nat) : Option (Nat × Nat × Option Nat × Nat × Nat) :=
  match t.store i with
  | .Branch packed maxSize parent left right => some (packed, maxSize, parent, left, right)
  | _ => none

/-- Pivot of a branch id. -/
def pivotOf (t : VMATree) (i : Nat) : Option Nat :=
  (t.branchFields i).map fun f => pivotOfPacked f.1

/-- The `is_temp_null` flag of a branch id. -/
def isTempNull (t : VMATree) (i : Nat) : Option Bool :=
  (t.branchFields i).map fun f => f.1.testBit 1

/-- Parent pointer of a branch id. -/
def parentOf (t : VMATree) (i : Nat) : Option (Option Nat) :=
  (t.branchFields i).map fun f => f.2.2.1

/-- Left child of a branch id. -/
def leftOf (t : VMATree) (i : Nat) : Option Nat :=
  (t.branchFields i).map fun f => f.2.2.2.1

/-- Right child of a branch id. -/
def rightOf (t : VMATree) (i : Nat) : Option Nat :=
  (t.branchFields i).map fun f => f.2.2.2.2

/-- Child on a given side. -/
def childOf (t : VMATree) (i : Nat) (side : Side) : Option Nat :=
  match side with
  | .Left => t.leftOf i
  | .Right => t.rightOf i

/-- `set_color` (packed-field update). -/
def setColor (t : VMATree) (i : Nat) (c : NodeColor) : Option VMATree :=
  match t.store i with
  | .Branch packed maxSize parent left right =>
    some (t.write i (.Branch ((packed - packed % 2) + (if c = NodeColor.Black then 1 else 0))
      maxSize parent left right))
  | _ => none

/-- `set_pivot` (packed-field update, keeping the two low bits). -/
def setPivot (t : VMATree) (i pivot : Nat) : Option VMATree :=
  match t.store i with
  | .Branch packed maxSize parent left right =>
    some (t.write i (.Branch ((pivot - pivot % 4) + packed % 4) maxSize parent left right))
  | _ => none

/-- `set_max_empty_area_size`. -/
def setMaxEmpty (t : VMATree) (i sz : Nat) : Option VMATree :=
  match t.store i with
  | .Branch packed _ parent left right =>
    some (t.write i (.Branch packed sz parent left right))
  | _ => none

/-- Update the parent pointer of a branch id. -/
def setParent (t : VMATree) (i : Nat) (p : Option Nat) : Option VMATree :=
  match t.store i with
  | .Branch packed maxSize _ left right =>
    some (t.write i (.Branch packed maxSize p left right))
  | _ => none

/-- Update one child pointer of a branch id. -/
def setChild (t : VMATree) (i : Nat) (side : Side) (c : Nat) : Option VMATree :=
  match t.store i, side with
  | .Branch packed maxSize parent _ right, .Left =>
    some (t.write i (.Branch packed maxSize parent c right))
  | .Branch packed maxSize parent left _, .Right =>
    some (t.write i (.Branch packed maxSize parent left c))
  | _, _ => none

/-- `is_left_side`: `none` when the node has no parent. -/
def isLeftSide (t : VMATree) (i : Nat) : Option Bool :=
  match t.parentOf i with
  | some (some p) => (t.leftOf p).map fun l => l = i
  | _ => none

/-- `is_right_side`. -/
def isRightSide (t : VMATree) (i : Nat) : Option Bool :=
  match t.parentOf i with
  | some (some p) => (t.rightOf p).map fun r => r = i
  | _ => none

/-- `get_parent` (`parent.unwrap()`). -/
def getParent (t : VMATree) (i : Nat) : Option Nat :=
  match t.parentOf i with
  | some (some p) => some p
  | _ => none

/-- `get_grandparent`. -/
def getGrandparent (t : VMATree) (i : Nat) : Option Nat :=
  (t.getParent i).bind fun p => t.getParent p

/-- `get_sibling`: the parent's other child (`unreachable!` if the node is
neither child). -/
def getSibling (t : VMATree) (i : Nat) : Option Nat :=
  (t.getParent i).bind fun p =>
    (t.leftOf p).bind fun l =>
      (t.rightOf p).bind fun r =>
        if i = l then some r else if i = r then some l else none

/-- Maximum empty area size contributed by a child node (`Branch` cache,
Used leaf 0, Empty leaf size). -/
def childMaxEmpty (t : VMATree) (i : Nat) : Nat :=
  match t.store i with
  | .Branch _ maxSize _ _ _ => maxSize
  | .LeafUsed _ => 0
  | .LeafEmpty size => size

/-- `recalculate_max_empty_area_size` on a branch. -/
def recalcMaxEmpty (t : VMATree) (i : Nat) : Option VMATree :=
  (t.leftOf i).bind fun l =>
    (t.rightOf i).bind fun r =>
      t.setMaxEmpty i (Nat.max (t.childMaxEmpty l) (t.childMaxEmpty r))

/-- `update_max_empty_area_data`: walk from `lowest_branch` to the root
recomputing the cached maxima. -/
def updateMaxLoop (t : VMATree) : Nat → Option Nat → Option VMATree
  | 0, _ => none
  | _, none => some t
  | fuel + 1, some i =>
    match t.store i with
    | .Branch _ _ parent left right =>
      let cur := Nat.max (t.childMaxEmpty left) (t.childMaxEmpty right)
      match t.setMaxEmpty i cur with
      | none => none
      | some t' => updateMaxLoop t' fuel parent
    | _ => none

/-- The `LeafInfo` struct returned by `get_leaf_containing`. -/
structure LeafInfo where
  leaf : Nat
  parent_and_side : Option (Nat × Side)
  start : Nat
  endAddr : Nat
deriving Repr, DecidableEq

/-- Descent loop of `get_leaf_containing`. -/
def glcGo (t : VMATree) (addr : Nat) :
    Nat → Nat → Option (Nat × Side) → Nat → Nat → Option LeafInfo
  | 0, _, _, _, _ => none
  | fuel + 1, node, pas, curStart, curEnd =>
    match t.store node with
    | .Branch packed _ _ left right =>
      let pivot := pivotOfPacked packed
      if addr < pivot then glcGo t addr fuel left (some (node, .Left)) curStart pivot
      else glcGo t addr fuel right (some (node, .Right)) pivot curEnd
    | _ => some { leaf := node, parent_and_side := pas, start := curStart, endAddr := curEnd - 1 }

/-- `VMATree::get_leaf_containing` with fuel. -/
def get_leaf_containing (t : VMATree) (addr : Nat) (fuel : Nat) : Option LeafInfo :=
  glcGo t addr fuel t.root none 0 (HIGHEST_USER_ADDRESS + 1)

/-- `replace_node`: splice `newNode` into `oldBranch`'s place. -/
def replaceNode (t : VMATree) (oldBranch newNode : Nat) : Option VMATree :=
  let step1 : Option VMATree :=
    match t.isLeftSide oldBranch with
    | some true => (t.getParent oldBranch).bind fun p => t.setChild p .Left newNode
    | some false => (t.getParent oldBranch).bind fun p => t.setChild p .Right newNode
    | none => some { t with root := newNode }
  step1.bind fun t1 =>
    if t1.isBranch newNode then
      (t.parentOf oldBranch).bind fun gp => t1.setParent newNode gp
    else some t1

/-- `left_rotate`. -/
def leftRotate (t : VMATree) (node : Nat) : Option VMATree :=
  (t.rightOf node).bind fun rightNode =>
    if ¬ t.isBranch rightNode then none else
    (t.leftOf rightNode).bind fun rl =>
      (t.setChild node .Right rl).bind fun t1 =>
        (if t1.isBranch rl then t1.setParent rl (some node) else some t1).bind fun t2 =>
          (t.parentOf node).bind fun np =>
            (t2.setParent rightNode np).bind fun t3 =>
              (match t.isLeftSide node with
                | some true => (t.getParent node).bind fun p => t3.setChild p .Left rightNode
                | some false => (t.getParent node).bind fun p => t3.setChild p .Right rightNode
                | none => some { t3 with root := rightNode }).bind fun t4 =>
                (t4.setChild rightNode .Left node).bind fun t5 =>
                  (t5.setParent node (some rightNode)).bind fun t6 =>
                    (t6.recalcMaxEmpty node).bind fun t7 =>
                      t7.recalcMaxEmpty rightNode

/-- Size field of an Empty leaf (`unwrap_empty_size_ptr` read). -/
def emptySize (t : VMATree) (i : Nat) : Option Nat :=
  match t.store i with
  | .LeafEmpty size => some size
  | _ => none

/-- `right_rotate`. -/
def rightRotate (t : VMATree) (node : Nat) : Option VMATree :=
  (t.leftOf node).bind fun leftNode =>
    if ¬ t.isBranch leftNode then none else
    (t.rightOf leftNode).bind fun lr =>
      (t.setChild node .Left lr).bind fun t1 =>
        (if t1.isBranch lr then t1.setParent lr (some node) else some t1).bind fun t2 =>
          (t.parentOf node).bind fun np =>
            (t2.setParent leftNode np).bind fun t3 =>
              (match t.isLeftSide node with
                | some true => (t.getParent node).bind fun p => t3.setChild p .Left leftNode
                | some false => (t.getParent node).bind fun p => t3.setChild p .Right leftNode
                | none => some { t3 with root := leftNode }).bind fun t4 =>
                (t4.setChild leftNode .Right node).bind fun t5 =>
                  (t5.setParent node (some leftNode)).bind fun t6 =>
                    (t6.recalcMaxEmpty node).bind fun t7 =>
                      t7.recalcMaxEmpty leftNode

/-- One iteration body plus loop of `fix_insert`: the loop runs while the
parent of `k` is red, with the two symmetric uncle cases, and breaks once
`k` is the root. -/
def fixInsertGo (t : VMATree) : Nat → Nat → Option VMATree
  | 0, _ => none
  | fuel + 1, k =>
    match t.getParent k with
    | none => none
    | some p =>
      if t.colorOf p = .Black then some t
      else
        (t.isRightSide p).bind fun pRight =>
          (t.getParent p).bind fun gp =>
            (if pRight then
              (t.leftOf gp).bind fun u =>
                match t.colorOf u with
                | .Red =>
                  (t.setColor u .Black).bind fun t1 =>
                    (t1.setColor p .Black).bind fun t2 =>
                      (t2.setColor gp .Red).map fun t3 => (t3, gp)
                | .Black =>
                  (t.isLeftSide k).bind fun kLeft =>
                    (if kLeft then (t.getParent k).bind fun kp =>
                        (t.rightRotate kp).map fun t1 => (t1, kp)
                      else some (t, k)).bind fun (t1, k1) =>
                      (t1.getParent k1).bind fun p1 =>
                        (t1.setColor p1 .Black).bind fun t2 =>
                          (t2.getGrandparent k1).bind fun gp1 =>
                            (t2.setColor gp1 .Red).bind fun t3 =>
                              (t3.getGrandparent k1).bind fun gp2 =>
                                (t3.leftRotate gp2).map fun t4 => (t4, k1)
            else
              (t.rightOf gp).bind fun u =>
                match t.colorOf u with
                | .Red =>
                  (t.setColor u .Black).bind fun t1 =>
                    (t1.setColor p .Black).bind fun t2 =>
                      (t2.setColor gp .Red).map fun t3 => (t3, gp)
                | .Black =>
                  (t.isRightSide k).bind fun kRight =>
                    (if kRight then (t.getParent k).bind fun kp =>
                        (t.leftRotate kp).map fun t1 => (t1, kp)
                      else some (t, k)).bind fun (t1, k1) =>
                      (t1.getParent k1).bind fun p1 =>
                        (t1.setColor p1 .Black).bind fun t2 =>
                          (t2.getGrandparent k1).bind fun gp1 =>
                            (t2.setColor gp1 .Red).bind fun t3 =>
                              (t3.getGrandparent k1).bind fun gp2 =>
                                (t3.rightRotate gp2).map fun t4 => (t4, k1)
            ).bind fun (t', k') =>
              if k' = t'.root then some t'
              else fixInsertGo t' fuel k'

/-- `VMATree::fix_insert`: loop then color the root black. -/
def fixInsert (t : VMATree) (fuel node : Nat) : Option VMATree :=
  if ¬ t.isBranch node then none
  else (fixInsertGo t fuel node).bind fun t' => t'.setColor t'.root .Black

/-- `VMATree::link_in_branch`: install the branch under its parent (or as
root), color it red and fix the tree when the parent is not the root, then
recompute the cached maxima from the branch upward. -/
def linkInBranch (t : VMATree) (fuel : Nat) (newBranch : Nat)
    (pas : Option (Nat × Side)) : Option VMATree :=
  match pas with
  | some (p, side) =>
    (t.setChild p side newBranch).bind fun t1 =>
      (t1.setColor newBranch .Red).bind fun t2 =>
        (match t2.parentOf p with
          | some (some _) => fixInsert t2 fuel newBranch
          | some none => some t2
          | none => none).bind fun t3 =>
          t3.updateMaxLoop fuel (some newBranch)
  | none =>
    let t1 := { t with root := newBranch }
    t1.updateMaxLoop fuel (some newBranch)

/-- `VMATree::insert`.  The node storage always hands out fresh ids here,
so the node-allocation-failure paths of the source are not taken; the
result is the id of the inserted Used leaf. -/
def insert (t : VMATree) (fuel start len flags : Nat) : Option (VMATree × Nat) :=
  let endA := start + len - 1
  (t.get_leaf_containing start fuel).bind fun info =>
    let gapNode := info.leaf
    if ¬ t.isEmptyLeaf gapNode then none
    else if ¬ (info.start ≤ start) then none
    else if ¬ (endA ≤ info.endAddr) then none
    else
      let gapStart := info.start
      let gapEnd := info.endAddr
      if gapStart = start ∧ endA = gapEnd then
        let t1 := t.write gapNode (.LeafUsed flags)
        match info.parent_and_side with
        | some (p, _) => (t1.updateMaxLoop fuel (some p)).map fun t2 => (t2, gapNode)
        | none => some (t1, gapNode)
      else if gapStart < start ∧ endA = gapEnd then
        let (t1, usedLeaf) := t.allocNode (.LeafUsed flags)
        let (t2, newBranch) := t1.allocNode (.Branch (packFields start false .Black) 0
          (info.parent_and_side.map Prod.fst) gapNode usedLeaf)
        let t3 := t2.write gapNode (.LeafEmpty (start - gapStart))
        (linkInBranch t3 fuel newBranch info.parent_and_side).map fun t4 => (t4, usedLeaf)
      else if gapStart = start ∧ endA < gapEnd then
        let (t1, usedLeaf) := t.allocNode (.LeafUsed flags)
        let (t2, newBranch) := t1.allocNode (.Branch (packFields (endA + 1) false .Black) 0
          (info.parent_and_side.map Prod.fst) usedLeaf gapNode)
        let t3 := t2.write gapNode (.LeafEmpty (gapEnd - endA))
        (linkInBranch t3 fuel newBranch info.parent_and_side).map fun t4 => (t4, usedLeaf)
      else if gapStart < start ∧ endA < gapEnd then
        let (t1, usedLeaf) := t.allocNode (.LeafUsed flags)
        let (t2, emptyLeaf) := t1.allocNode (.LeafEmpty (gapEnd - endA))
        let (t3, endBranch) := t2.allocNode (.Branch (packFields (endA + 1) false .Black) 0
          (info.parent_and_side.map Prod.fst) usedLeaf emptyLeaf)
        let (t4, startBranch) := t3.allocNode (.LeafEmpty 0)
        (linkInBranch t4 fuel endBranch info.parent_and_side).bind fun t5 =>
          (t5.get_leaf_containing start fuel).bind fun info2 =>
            let usedNode := info2.leaf
            let t6 := t5.write startBranch (.Branch (packFields start false .Black) 0
              (info2.parent_and_side.map Prod.fst) gapNode usedNode)
            let t7 := t6.write gapNode (.LeafEmpty (start - gapStart))
            (linkInBranch t7 fuel startBranch info2.parent_and_side).map fun t8 => (t8, usedNode)
      else none

/-- `find_min`: leftmost branch of a subtree. -/
def findMin (t : VMATree) : Nat → Nat → Option Nat
  | 0, _ => none
  | fuel + 1, node =>
    (t.leftOf node).bind fun l =>
      if t.isBranch l then findMin t fuel l else some node

/-- `min_leaf`. -/
def minLeaf (t : VMATree) : Nat → Nat → Option Nat
  | 0, _ => none
  | fuel + 1, node =>
    match t.store node with
    | .Branch _ _ _ left _ => minLeaf t fuel left
    | _ => some node

/-- `max_leaf`. -/
def maxLeaf (t : VMATree) : Nat → Nat → Option Nat
  | 0, _ => none
  | fuel + 1, node =>
    match t.store node with
    | .Branch _ _ _ _ right => maxLeaf t fuel right
    | _ => some node

/-- `delete_node_with_zero_or_one_child`: returns the updated tree, the
moved-up node and the (pre-splice) parent of `node`.  A black node whose
children are both leaves is replaced by the temp-null sentinel written
into the `temp_node` slot (id 0). -/
def deleteNodeZeroOne (t : VMATree) (node : Nat) : Option (VMATree × Nat × Option Nat) :=
  (t.parentOf node).bind fun parent =>
    (t.leftOf node).bind fun left =>
      (t.rightOf node).bind fun right =>
        if t.isBranch left then
          (t.replaceNode node left).map fun t1 => (t1.freeNode right, left, parent)
        else if t.isBranch right then
          (t.replaceNode node right).map fun t1 => (t1.freeNode left, right, parent)
        else
          match t.colorOf node with
          | .Black =>
            let t1 := t.write 0 (.Branch (packFields 0 true .Black) 0 none left right)
            (t1.replaceNode node 0).map fun t2 => (t2, 0, parent)
          | .Red =>
            if t.isUsedLeaf left then
              let t1 := t.freeNode right
              (t1.replaceNode node left).map fun t2 => (t2, left, parent)
            else
              let t1 := t.freeNode left
              (t1.replaceNode node right).map fun t2 => (t2, right, parent)

/-- `handle_red_sibling`. -/
def handleRedSibling (t : VMATree) (node sibling : Nat) : Option VMATree :=
  (t.setColor sibling .Black).bind fun t1 =>
    (t1.getParent node).bind fun p =>
      (t1.setColor p .Red).bind fun t2 =>
        match t2.isLeftSide node with
        | some true => (t2.getParent node).bind fun p2 => t2.leftRotate p2
        | some false =>
          (t2.isRightSide node).bind fun nr =>
            if nr then (t2.getParent node).bind fun p2 => t2.rightRotate p2
            else none
        | none => none

/-- `handle_black_sibling_at_least_one_red_child`. -/
def handleBlackSibling (t : VMATree) (node sibling : Nat) : Option VMATree :=
  (t.isLeftSide node).bind fun isLeft =>
    (if isLeft then
      (t.rightOf sibling).bind fun sr =>
        if t.colorOf sr = .Black then
          (t.leftOf sibling).bind fun sl =>
            (t.setColor sl .Black).bind fun t1 =>
              (t1.setColor sibling .Red).bind fun t2 =>
                (t2.rightRotate sibling).bind fun t3 =>
                  (t3.getParent node).bind fun p =>
                    (t3.rightOf p).map fun ns => (t3, ns)
        else some (t, sibling)
    else
      (t.leftOf sibling).bind fun sl =>
        if t.colorOf sl = .Black then
          (t.rightOf sibling).bind fun sr =>
            (t.setColor sr .Black).bind fun t1 =>
              (t1.setColor sibling .Red).bind fun t2 =>
                (t2.leftRotate sibling).bind fun t3 =>
                  (t3.getParent node).bind fun p =>
                    (t3.leftOf p).map fun ns => (t3, ns)
        else some (t, sibling)
    ).bind fun (t1, sib) =>
      (t1.getParent node).bind fun p =>
        (t1.setColor sib (t1.colorOf p)).bind fun t2 =>
          (t2.setColor p .Black).bind fun t3 =>
            if isLeft then
              (t3.rightOf sib).bind fun sr =>
                (t3.setColor sr .Black).bind fun t4 =>
                  (t4.getParent node).bind fun p2 => t4.leftRotate p2
            else
              (t3.leftOf sib).bind fun sl =>
                (t3.setColor sl .Black).bind fun t4 =>
                  (t4.getParent node).bind fun p2 => t4.rightRotate p2

/-- The loop of `fix_delete`; returns the tree and the final `node`. -/
def fixDeleteGo (t : VMATree) : Nat → Nat → Option (VMATree × Nat)
  | 0, _ => none
  | fuel + 1, node =>
    if node = t.root then some (t, node)
    else
      (t.getSibling node).bind fun sib0 =>
        if ¬ t.isBranch sib0 then none else
        (if t.colorOf sib0 = .Red then
            (handleRedSibling t node sib0).bind fun t1 =>
              (t1.getSibling node).bind fun sib1 =>
                if ¬ t1.isBranch sib1 then none else some (t1, sib1)
          else some (t, sib0)).bind fun (t1, sib) =>
          (t1.leftOf sib).bind fun sl =>
            (t1.rightOf sib).bind fun sr =>
              if t1.colorOf sl = .Black ∧ t1.colorOf sr = .Black then
                (t1.setColor sib .Red).bind fun t2 =>
                  (t2.getParent node).bind fun p =>
                    if t2.colorOf p = .Red then
                      (t2.setColor p .Black).map fun t3 => (t3, node)
                    else
                      fixDeleteGo t2 fuel p
              else
                (handleBlackSibling t1 node sib).map fun t2 => (t2, node)

/-- `VMATree::fix_delete`: the loop, then color the node black if it ended
at the root. -/
def fixDelete (t : VMATree) (fuel node : Nat) : Option VMATree :=
  (fixDeleteGo t fuel node).bind fun tn =>
    if tn.2 = tn.1.root then tn.1.setColor tn.2 .Black else some tn.1

/-- `VMATree::delete_branch`: CLRS deletion of a branch node, with the
two-branch-children case replaced through the right-subtree minimum, the
double-black fixed through `fix_delete`, and the temp-null sentinel
collapsed to whichever child is not a Used leaf. -/
def deleteBranch (t : VMATree) (fuel db : Nat) : Option VMATree :=
  (t.leftOf db).bind fun left =>
    (t.rightOf db).bind fun right =>
      (if t.isLeaf left ∨ t.isLeaf right then
        (deleteNodeZeroOne t db).map fun r => (r.1, r.2.1, r.2.2, r.1.colorOf db, db)
      else
        if ¬ t.isBranch right then none else
        (findMin t fuel right).bind fun successor =>
          (t.pivotOf successor).bind fun spiv =>
            (t.setPivot db spiv).bind fun t1 =>
              (t1.branchFields successor).bind fun sf =>
                (t1.setMaxEmpty db sf.2.1).bind fun t2 =>
                  (deleteNodeZeroOne t2 successor).map fun r =>
                    (r.1, r.2.1, r.2.2, r.1.colorOf successor, successor)
      ).bind fun res =>
        match res with
        | (t1, movedUp, movedUpParent, color, freedNode) =>
          let t2 := t1.freeNode freedNode
          (if color = .Black then
            if ¬ t2.isBranch movedUp then none else
            (fixDelete t2 fuel movedUp).bind fun t3 =>
              (t3.isTempNull movedUp).bind fun istn =>
                if istn then
                  (t3.leftOf movedUp).bind fun lc =>
                    (t3.rightOf movedUp).map fun rc =>
                      if t3.isUsedLeaf lc then
                        let t4 := t3.write movedUp (t3.store lc)
                        (t4.freeNode lc).freeNode rc
                      else
                        let t4 := t3.write movedUp (t3.store rc)
                        (t4.freeNode lc).freeNode rc
                else some t3
          else some t2).bind fun t5 =>
            match movedUpParent with
            | some p => t5.updateMaxLoop fuel (some p)
            | none => some t5

/-- Phase of the gap-join loop: the `continue 'gap_join_loop` refetch, or
the inner ancestry scan at a current branch. -/
inductive GJPhase
  | refetch
  | scan (cur : Option Nat)

/-- The `'gap_join_loop` of `VMATree::delete`: refetch the leaf, update the
maxima up the spine, then scan the ancestry for a branch whose left-subtree
maximum leaf and right-subtree minimum leaf are both empty, merging their
sizes and deleting the splitting branch, restarting the outer loop after
each such deletion. -/
def gapJoinGo (addr : Nat) : Nat → VMATree → GJPhase → Option VMATree
  | 0, _, _ => none
  | fuel + 1, t, .refetch =>
    (t.get_leaf_containing addr (fuel + 1)).bind fun info =>
      (match info.parent_and_side with
        | some (p, _) => t.updateMaxLoop (fuel + 1) (some p)
        | none => some t).bind fun t1 =>
        gapJoinGo addr fuel t1 (.scan (info.parent_and_side.map Prod.fst))
  | _ + 1, t, .scan none => some t
  | fuel + 1, t, .scan (some branch) =>
    (t.leftOf branch).bind fun l =>
      (t.rightOf branch).bind fun r =>
        (maxLeaf t (fuel + 1) l).bind fun lm =>
          (minLeaf t (fuel + 1) r).bind fun rm =>
            if t.isEmptyLeaf lm ∧ t.isEmptyLeaf rm then
              (t.emptySize lm).bind fun a =>
                (t.emptySize rm).bind fun b =>
                  let comb := a + b
                  let t1 := (t.write lm (.LeafEmpty comb)).write rm (.LeafEmpty comb)
                  (deleteBranch t1 (fuel + 1) branch).bind fun t2 =>
                    gapJoinGo addr fuel t2 .refetch
            else
              (t.parentOf branch).bind fun p => gapJoinGo addr fuel t (.scan p)

/-- Entry point of the gap-join loop. -/
def gapJoin (fuel : Nat) (t : VMATree) (addr : Nat) : Option VMATree :=
  gapJoinGo addr fuel t .refetch

/-- `VMATree::delete`: rewrite the Used leaf to Empty, merge with an empty
sibling (deleting the parent), then run the gap-join loop. -/
def delete (t : VMATree) (fuel addr : Nat) : Option VMATree :=
  (t.get_leaf_containing addr fuel).bind fun info =>
    if ¬ t.isUsedLeaf info.leaf then none
    else
      let t1 := t.write info.leaf (.LeafEmpty (info.endAddr + 1 - info.start))
      match info.parent_and_side with
      | none => some t1
      | some (parent, side) =>
        (t1.childOf parent side.flip).bind fun sibling =>
          (if t1.isEmptyLeaf sibling then
            (t1.emptySize info.leaf).bind fun ls =>
              (t1.emptySize sibling).bind fun ss =>
                let comb := ls + ss
                let t2 := (t1.write info.leaf (.LeafEmpty comb)).write sibling (.LeafEmpty comb)
                deleteBranch t2 fuel parent
          else some t1).bind fun t3 =>
            gapJoin fuel t3 addr

end VMATree

/-!
The VMA allocator front end (`VMAAllocator`) and the `MapTask`/`UnmapTask`
wrappers of `vma.rs`.
-/

/-- The `VMAUnmapError` enum. -/
inductive VMAUnmapError
  | SegmentAlreadyUnmapped
  | SegmentLocked
deriving Repr, DecidableEq

/-- The `VMAMapError` enum (note: no locked variant exists here). -/
inductive VMAMapError
  | SegmentAlreadyExists
  | OutOfMemory
  | OutOfAddressSpace
deriving Repr, DecidableEq

/-- The `Segment` struct. -/
structure Segment where
  start : Nat
  len : Nat
  flags : SegmentFlags
deriving Repr, DecidableEq

/-- The `UnmapTask` struct. -/
structure UnmapTask where
  start_address : Nat
  unmap_mem_task : UnmapMemTask
deriving Repr, DecidableEq

/-- The `MapTask` struct. -/
structure MapTask where
  map_mem_task : MapMemTask
deriving Repr, DecidableEq

/-- `VMAAllocator::start_unmap`: read the leaf containing the address;
Empty fails `SegmentAlreadyUnmapped`, a locked Used leaf fails
`SegmentLocked`, otherwise the leaf is locked and an `UnmapTask` over the
segment's page count is returned. -/
def start_unmap (t : VMATree) (fuel addr : Nat) :
    Option (Except VMAUnmapError UnmapTask × VMATree) :=
  (t.get_leaf_containing addr fuel).bind fun info =>
    match t.store info.leaf with
    | .Branch _ _ _ _ _ => none
    | .LeafEmpty _ => some (.error .SegmentAlreadyUnmapped, t)
    | .LeafUsed flags =>
      if NodeFlags.locked flags then some (.error .SegmentLocked, t)
      else
        let t1 := t.write info.leaf (.LeafUsed (flags ||| (1 <<< 31)))
        some (.ok { start_address := info.start
                    unmap_mem_task :=
                      UnmapMemTask.new info.start ((info.endAddr + 1 - info.start) / PAGE_SIZE) },
              t1)

/-- `VMAAllocator::start_try_map_at`: fails `SegmentAlreadyExists` when the
leaf containing the start ends before the requested end or is Used;
otherwise inserts a Used leaf, locks it, and returns a `MapTask`. -/
def start_try_map_at (t : VMATree) (fuel : Nat) (seg : Segment) :
    Option (Except VMAMapError MapTask × VMATree) :=
  let segEnd := seg.start + seg.len - 1
  (t.get_leaf_containing seg.start fuel).bind fun info =>
    if info.endAddr < segEnd then some (.error .SegmentAlreadyExists, t)
    else
      match t.store info.leaf with
      | .Branch _ _ _ _ _ => none
      | .LeafUsed _ => some (.error .SegmentAlreadyExists, t)
      | .LeafEmpty _ =>
        (VMATree.insert t fuel seg.start seg.len (NodeFlags.ofSegmentFlags seg.flags)).bind
          fun tn =>
            match tn.1.store tn.2 with
            | .LeafUsed flags =>
              let t2 := tn.1.write tn.2 (.LeafUsed (flags ||| (1 <<< 31)))
              some (.ok { map_mem_task := MapMemTask.new seg.start (seg.len / PAGE_SIZE) seg.flags },
                    t2)
            | _ => none

/-- Combined state of a `VMAAllocator`: its user page mapper (machine state
plus PML4 frame) and its tree. -/
structure AllocState where
  m : MState
  pml4 : Nat
  tree : VMATree

/-- `MapTask::run`: drive the inner `MapMemTask`; when it completes
successfully, unlock the Used leaf at the start address and then call
`tree.delete(start_address)`; when it fails, return the error without
touching the tree. -/
def MapTask.run (suspend : Nat → Bool) (fuel : Nat) (task : MapTask) (a : AllocState) :
    Option (Poll (Except MapMemError Nat) × MapTask × AllocState) :=
  match MapMemTask.run a.pml4 suspend fuel 0 task.map_mem_task a.m with
  | none => none
  | some (.Pending, mt, s') => some (.Pending, { map_mem_task := mt }, { a with m := s' })
  | some (.Ready (.error e), mt, s') =>
    some (.Ready (.error e), { map_mem_task := mt }, { a with m := s' })
  | some (.Ready (.ok pages), mt, s') =>
    (a.tree.get_leaf_containing mt.start_address fuel).bind fun info =>
      match a.tree.store info.leaf with
      | .LeafUsed flags =>
        let t1 := a.tree.write info.leaf (.LeafUsed (flags &&& 0x7FFFFFFF))
        (VMATree.delete t1 fuel mt.start_address).map fun t2 =>
          (.Ready (.ok pages), { map_mem_task := mt }, { a with m := s', tree := t2 })
      | _ => none

/-- `UnmapTask::run`: drive the inner `UnmapMemTask`; on completion delete
the segment from the tree. -/
def UnmapTask.run (suspend : Nat → Bool) (fuel : Nat) (task : UnmapTask) (a : AllocState) :
    Option (Poll Nat × UnmapTask × AllocState) :=
  match UnmapMemTask.run a.pml4 suspend fuel 0 0 task.unmap_mem_task a.m with
  | none => none
  | some (.Pending, ut, s') =>
    some (.Pending, { task with unmap_mem_task := ut }, { a with m := s' })
  | some (.Ready pagesFreed, ut, s') =>
    (VMATree.delete a.tree fuel task.start_address).map fun t2 =>
      (.Ready pagesFreed, { task with unmap_mem_task := ut }, { a with m := s', tree := t2 })

/-!
Specification-side auxiliary predicates on tree states, used to state the
invariant claims: a fuel-bounded check that the pivots along every path lie
strictly between the bounds inherited from the ancestors (so every leaf's
computed range is nonempty and ranges are ordered), and the true maximum
Empty-leaf size of a subtree (to compare against the cached
`max_empty_area_size`).
-/

namespace VMATree

/-- Fuel-bounded check that every branch pivot lies strictly inside the
address bounds inherited from its ancestors (`hi` exclusive). -/
def checkBounds (t : VMATree) : Nat → Nat → Nat → Nat → Bool
  | 0, _, _, _ => false
  | fuel + 1, node, lo, hi =>
    match t.store node with
    | .Branch packed _ _ l r =>
      let piv := pivotOfPacked packed
      lo < piv && piv < hi && checkBounds t fuel l lo piv && checkBounds t fuel r piv hi
    | _ => lo < hi

/-- The true maximum size over all Empty-leaf descendants of a node
(0 when there is none), computed with fuel. -/
def maxEmptyActual (t : VMATree) : Nat → Nat → Option Nat
  | 0, _ => none
  | fuel + 1, node =>
    match t.store node with
    | .LeafEmpty s => some s
    | .LeafUsed _ => some 0
    | .Branch _ _ _ l r =>
      (maxEmptyActual t fuel l).bind fun a =>
        (maxEmptyActual t fuel r).map fun b => Nat.max a b

end VMATree

/-!
Concrete scenario states used by the per-claim evaluation theorems.  The
physical allocator starts from a one-byte bitmap (eight frames); the most
significant bit is frame 0, matching the `0x80 >> bit_index` convention of
the source.
-/

/-- A machine state over eight frames with the given initial bitmap byte
and all memory zeroed. -/
def mstateOfByte (byte : Nat) : MState :=
  { ppa := { memory_bitmap := [byte], total_pages := 8, free_pages := PPA.countZeros [byte] }
    mem := fun _ => zeroTable
    bytes := fun _ => List.replicate 4096 0 }

/-- Fresh machine state, all eight frames free. -/
def freshM : MState := mstateOfByte 0x00

/-- A fresh user page mapper state: the PML4 occupies frame 0 (the lowest
free frame), its lower half is zero, and the kernel PML4 copied into the
upper half is all zero here. -/
def freshMapper : Option (MState × Nat) := UserPageMapper.new freshM zeroTable

/-- Machine state with three free frames (bits 0, 1, 2 clear). -/
def threeFreeM : MState := mstateOfByte 0x1F

/-- Machine state with five free frames (bits 0..4 clear). -/
def fiveFreeM : MState := mstateOfByte 0x07

/-- Mapper state for the `map_blank_page` out-of-memory scenario: after
`UserPageMapper::new` two free frames remain. -/
def oomMapper : Option (MState × Nat) := UserPageMapper.new threeFreeM zeroTable

/-- The `map_blank_page` OOM run: two free frames are not enough for the
three parent tables plus the leaf. -/
def oomBlankRun : Option (Except UserPageMapperError Unit × MState × Nat) :=
  oomMapper.map fun p => UserPageMapper.map_blank_page p.1 p.2 0x1000 PageTableEntry.READ_WRITE 0

/-- The `MapMemTask` rewind scenario: after `UserPageMapper::new` on
`fiveFreeM` four free frames remain; a two-page task maps its first page
(consuming all four frames) and hits OutOfMemory on the second leaf. -/
def rewindRun : Option (Poll (Except MapMemError Nat) × MapMemTask × MState) :=
  (UserPageMapper.new fiveFreeM zeroTable).bind fun p =>
    MapMemTask.run p.2 (fun _ => false) 50 0
      (MapMemTask.new 0x2000 2 { read := true, write := true, execute := false }) p.1

/-- Two blank pages mapped at 0x1000 and 0x2000 on a fresh mapper (they
share the PDPT/PD/PT parent chain). -/
def twoPagesMapped : Option (MState × Nat) :=
  freshMapper.bind fun p =>
    match UserPageMapper.map_blank_page p.1 p.2 0x1000 PageTableEntry.READ_WRITE 0 with
    | (.ok (), s1, _) =>
      match UserPageMapper.map_blank_page s1 p.2 0x2000 PageTableEntry.READ_WRITE 0 with
      | (.ok (), s2, _) => some (s2, p.2)
      | _ => none
    | _ => none

/-- `unmap_page(0x1000, 3)` on the two-page state. -/
def unmapRun : Option (MState × Nat) :=
  twoPagesMapped.map fun p => UserPageMapper.unmap_page p.1 p.2 0x1000 3

/-- A page-crossing buffer copy: `map_mem_copy_from_buffer(0xFFF, 2, buffer)`
with a two-byte buffer — one byte lands on the first page, one on the
second. -/
def copyRun : Option (Except UserPageMapper.CopyError MState) :=
  freshMapper.bind fun p =>
    UserPageMapper.map_mem_copy_from_buffer p.1 p.2 0xFFF 2 [7, 7]

/-- A kernel PML4 whose entry 256 is present (target frame 0x5000,
read/write). -/
def kernelTableWithEntry : PageTable :=
  (List.replicate 256 0) ++ (0x5003 :: List.replicate 255 0)

/-- Mapper construction over `kernelTableWithEntry`; the PML4 lands in
frame 0 (physical address 0). -/
def mapperAtZero : Option (MState × Nat) := UserPageMapper.new freshM kernelTableWithEntry

/-- `unmap_mem(0x100000, 4096)` on that mapper: all parent indices of the
walk are 0 and not present, and the leaf index is 256. -/
def unmapMemRun : Option MState :=
  mapperAtZero.map fun p => UserPageMapper.unmap_mem p.1 p.2 0x100000 4096

/-- The VMA tree op sequence exercising the temp-sentinel slot: insert a
segment, delete it (which leaves the collapsed sentinel, node 0, linked as
the root), insert twice more and delete again, so the sentinel slot is
reused while still linked into the tree. -/
def sentinelSeq : Option VMATree :=
  (VMATree.insert VMATree.new 40 0x1000 0x1000 3).bind fun x =>
    (VMATree.delete x.1 40 0x1000).bind fun t =>
      (VMATree.insert t 40 0x1000 0x1000 3).bind fun y =>
        (VMATree.insert y.1 40 0x3000 0x1000 3).bind fun z =>
          VMATree.delete z.1 40 0x3000

/-- A tree holding one locked Used segment at `[0x1000, 0x1FFF]`, as left
by `start_try_map_at`. -/
def lockedTree : Option VMATree :=
  (start_try_map_at VMATree.new 40
    { start := 0x1000, len := 0x1000, flags := { read := true, write := true, execute := false } }).map
    fun r => r.2

/-- The successful `MapTask` scenario: a fresh allocator over eight free
frames, `start_try_map_at` of one page at 0x1000, then `MapTask::run` to
completion. -/
def mapTaskStart : Option (Except VMAMapError MapTask × AllocState) :=
  freshMapper.bind fun p =>
    (start_try_map_at VMATree.new 40
      { start := 0x1000, len := 0x1000, flags := { read := true, write := true, execute := false } }).map
      fun r => (r.1, { m := p.1, pml4 := p.2, tree := r.2 })

/-- The completed successful map run. -/
def mapTaskRun : Option (Poll (Except MapMemError Nat) × MapTask × AllocState) :=
  mapTaskStart.bind fun x =>
    match x.1 with
    | .ok task => MapTask.run (fun _ => false) 50 task x.2
    | .error _ => none

/-- The failing `MapTask` scenario: five free frames (four after the PML4),
a two-page request at 0x2000; the second page hits OutOfMemory and the task
rewinds. -/
def mapTaskStartOOM : Option (Except VMAMapError MapTask × AllocState) :=
  (UserPageMapper.new fiveFreeM zeroTable).bind fun p =>
    (start_try_map_at VMATree.new 40
      { start := 0x2000, len := 0x2000, flags := { read := true, write := true, execute := false } }).map
      fun r => (r.1, { m := p.1, pml4 := p.2, tree := r.2 })

/-- The completed failing map run. -/
def mapTaskRunOOM : Option (Poll (Except MapMemError Nat) × MapTask × AllocState) :=
  mapTaskStartOOM.bind fun x =>
    match x.1 with
    | .ok task => MapTask.run (fun _ => false) 50 task x.2
    | .error _ => none

/-- The `UnmapTask` scenario: start an unmap of the (unlocked) segment of a
tree holding one Used segment at `[0x1000, 0x1FFF]`, then run it. -/
def unmapTaskTree : Option VMATree :=
  (VMATree.insert VMATree.new 40 0x1000 0x1000 3).map fun x => x.1

/-- The completed unmap run on a fresh mapper. -/
def unmapTaskRun : Option (Poll Nat × UnmapTask × AllocState) :=
  freshMapper.bind fun p =>
    unmapTaskTree.bind fun t =>
      (start_unmap t 40 0x1800).bind fun r =>
        match r.1 with
        | .ok task => UnmapTask.run (fun _ => false) 50 task { m := p.1, pml4 := p.2, tree := r.2 }
        | .error _ => none

/-- The machine state directly after `UserPageMapper::new` on `freshM` with
an all-zero kernel PML4: frame 0 (the PML4) is reserved and zeroed, all
other frames are free and zeroed. -/
def freshMapperM : MState :=
  { ppa := { memory_bitmap := [0x80], total_pages := 8, free_pages := 7 }
    mem := fun _ => zeroTable
    bytes := fun _ => List.replicate 4096 0 }

/-- State right after a successful frame reservation (the shape produced by
`MState.reservePage`). -/
def afterReserve (s : MState) (p' : PPA) (f : Nat) : MState :=
  { ppa := p'
    mem := fun g => if g = f then zeroTable else s.mem g
    bytes := fun g => if g = f then List.replicate 4096 0 else s.bytes g }

/-- A tree holding a single locked Used leaf covering the whole user
address range. -/
def lockedLeafTree : VMATree :=
  { root := 1
    store := fun i => if i = 1 then .LeafUsed 0x80000003 else .LeafEmpty 0
    nextId := 2 }

/-- A fully free eight-frame physical allocator. -/
def allFreePPA : PPA := { memory_bitmap := [0x00], total_pages := 8, free_pages := 8 }

end NineX

/-!
Theorems.  First the general lemmas about the embedded definitions, then
one theorem per claim (with its witness or counterexample where one is
required).
-/

namespace NineX

namespace VMATree

/-- Any leaf returned by the descent loop covers the queried address:
its computed range satisfies `start ≤ addr ≤ endAddr` whenever the
inherited bounds do. -/
theorem glcGo_covers (t : VMATree) (addr : Nat) :
    ∀ fuel node pas lo hi info, glcGo t addr fuel node pas lo hi = some info →
      lo ≤ addr → addr < hi → info.start ≤ addr ∧ addr ≤ info.endAddr := by
  intro fuel
  induction fuel with
  | zero => intro node pas lo hi info h; simp [glcGo] at h
  | succ n ih =>
    intro node pas lo hi info h hlo hhi
    rw [glcGo] at h
    cases hs : t.store node with
    | Branch packed maxS p l r =>
      rw [hs] at h
      dsimp only at h
      by_cases hcmp : addr < pivotOfPacked packed
      · rw [if_pos hcmp] at h
        exact ih l _ lo _ info h hlo hcmp
      · rw [if_neg hcmp] at h
        exact ih r _ _ hi info h (Nat.le_of_not_lt hcmp) hhi
    | LeafEmpty s =>
      rw [hs] at h
      dsimp only at h
      rw [Option.some_inj] at h
      subst h
      exact ⟨hlo, Nat.le_sub_one_of_lt hhi⟩
    | LeafUsed f =>
      rw [hs] at h
      dsimp only at h
      rw [Option.some_inj] at h
      subst h
      exact ⟨hlo, Nat.le_sub_one_of_lt hhi⟩

/-- Under the pivot-ordering check, the returned leaf's range stays inside
the inherited bounds. -/
theorem glcGo_bounded (t : VMATree) (addr : Nat) :
    ∀ fuel node pas lo hi info, checkBounds t fuel node lo hi = true →
      glcGo t addr fuel node pas lo hi = some info →
      lo ≤ info.start ∧ info.endAddr < hi := by
  intro fuel
  induction fuel with
  | zero => intro node pas lo hi info hb h; simp [glcGo] at h
  | succ n ih =>
    intro node pas lo hi info hb h
    rw [glcGo] at h
    rw [checkBounds] at hb
    cases hs : t.store node with
    | Branch packed maxS p l r =>
      rw [hs] at h hb
      dsimp only at h hb
      simp only [Bool.and_eq_true, decide_eq_true_eq] at hb
      obtain ⟨⟨⟨h1, h2⟩, h3⟩, h4⟩ := hb
      by_cases hcmp : addr < pivotOfPacked packed
      · rw [if_pos hcmp] at h
        have hr := ih l _ lo _ info h3 h
        exact ⟨hr.1, Nat.lt_trans hr.2 h2⟩
      · rw [if_neg hcmp] at h
        have hr := ih r _ _ hi info h4 h
        exact ⟨Nat.le_trans (Nat.le_of_lt h1) hr.1, hr.2⟩
    | LeafEmpty s =>
      rw [hs] at h hb
      dsimp only at h hb
      rw [Option.some_inj] at h
      subst h
      simp only [decide_eq_true_eq] at hb
      exact ⟨Nat.le_refl _, Nat.sub_one_lt (Nat.not_eq_zero_of_lt hb)⟩
    | LeafUsed f =>
      rw [hs] at h hb
      dsimp only at h hb
      rw [Option.some_inj] at h
      subst h
      simp only [decide_eq_true_eq] at hb
      exact ⟨Nat.le_refl _, Nat.sub_one_lt (Nat.not_eq_zero_of_lt hb)⟩

/-- Under the pivot-ordering check, two addresses `a < b` either land in
the same leaf or in leaves with disjoint ordered ranges. -/
theorem glcGo_pair (t : VMATree) (a b : Nat) :
    ∀ fuel node pas lo hi ia ib, checkBounds t fuel node lo hi = true →
      a < b →
      glcGo t a fuel node pas lo hi = some ia →
      glcGo t b fuel node pas lo hi = some ib →
      ia = ib ∨ ia.endAddr < ib.start := by
  intro fuel
  induction fuel with
  | zero => intro node pas lo hi ia ib hb hab h1 h2; simp [glcGo] at h1
  | succ n ih =>
    intro node pas lo hi ia ib hb hab h1 h2
    rw [glcGo] at h1 h2
    rw [checkBounds] at hb
    cases hs : t.store node with
    | Branch packed maxS p l r =>
      rw [hs] at h1 h2 hb
      dsimp only at h1 h2 hb
      simp only [Bool.and_eq_true, decide_eq_true_eq] at hb
      obtain ⟨⟨⟨hb1, hb2⟩, hb3⟩, hb4⟩ := hb
      by_cases ha : a < pivotOfPacked packed
      · rw [if_pos ha] at h1
        by_cases hbp : b < pivotOfPacked packed
        · rw [if_pos hbp] at h2
          exact ih l _ lo _ ia ib hb3 hab h1 h2
        · rw [if_neg hbp] at h2
          right
          have hA := glcGo_bounded t a n l _ lo _ ia hb3 h1
          have hB := glcGo_bounded t b n r _ _ hi ib hb4 h2
          exact Nat.lt_of_lt_of_le hA.2 hB.1
      · rw [if_neg ha] at h1
        have hbp : ¬ b < pivotOfPacked packed :=
          fun hc => ha (Nat.lt_trans hab hc)
        rw [if_neg hbp] at h2
        exact ih r _ _ hi ia ib hb4 hab h1 h2
    | LeafEmpty s =>
      rw [hs] at h1 h2
      dsimp only at h1 h2
      rw [Option.some_inj] at h1 h2
      left; rw [← h1, ← h2]
    | LeafUsed f =>
      rw [hs] at h1 h2
      dsimp only at h1 h2
      rw [Option.some_inj] at h1 h2
      left; rw [← h1, ← h2]

end VMATree

/-- A node on which `is_used_leaf` holds stores a `LeafUsed`. -/
theorem isUsedLeaf_exists (t : VMATree) (i : Nat) (h : t.isUsedLeaf i = true) :
    ∃ flags, t.store i = .LeafUsed flags := by
  unfold VMATree.isUsedLeaf at h
  cases hs : t.store i with
  | Branch a b c d e => rw [hs] at h; simp at h
  | LeafEmpty sz => rw [hs] at h; simp at h
  | LeafUsed f => exact ⟨f, rfl⟩

/-- `start_unmap` on an address whose leaf is a locked Used leaf fails
`SegmentLocked` and returns the tree unchanged. -/
theorem start_unmap_locked_of (t : VMATree) (fuel addr : Nat) (info : VMATree.LeafInfo)
    (flags : Nat)
    (hg : t.get_leaf_containing addr fuel = some info)
    (hs : t.store info.leaf = .LeafUsed flags)
    (hl : NodeFlags.locked flags = true) :
    start_unmap t fuel addr = some (.error .SegmentLocked, t) := by
  unfold start_unmap
  rw [hg, Option.some_bind]
  rw [hs]
  dsimp only
  rw [hl]
  simp

/-- `start_unmap` on an address whose leaf is Empty fails
`SegmentAlreadyUnmapped` and returns the tree unchanged. -/
theorem start_unmap_empty_of (t : VMATree) (fuel addr : Nat) (info : VMATree.LeafInfo)
    (sz : Nat)
    (hg : t.get_leaf_containing addr fuel = some info)
    (hs : t.store info.leaf = .LeafEmpty sz) :
    start_unmap t fuel addr = some (.error .SegmentAlreadyUnmapped, t) := by
  unfold start_unmap
  rw [hg, Option.some_bind]
  rw [hs]

/-- `start_try_map_at` fails `SegmentAlreadyExists` (the only conflict
error `VMAMapError` offers) when the leaf containing the start ends too
early or is a Used leaf, locked or not; the tree is returned unchanged. -/
theorem start_try_map_exists_of (t : VMATree) (fuel : Nat) (seg : Segment)
    (info : VMATree.LeafInfo)
    (hg : t.get_leaf_containing seg.start fuel = some info)
    (hcase : info.endAddr < seg.start + seg.len - 1 ∨ t.isUsedLeaf info.leaf = true) :
    start_try_map_at t fuel seg = some (.error .SegmentAlreadyExists, t) := by
  unfold start_try_map_at
  rw [hg, Option.some_bind]
  dsimp only
  by_cases hlt : info.endAddr < seg.start + seg.len - 1
  · rw [if_pos hlt]
  · rw [if_neg hlt]
    rcases hcase with h | hused
    · exact absurd h hlt
    · obtain ⟨flags, hs⟩ := isUsedLeaf_exists t info.leaf hused
      rw [hs]

theorem getD_replicate_zero : ∀ n i : Nat, (List.replicate n (0 : Nat)).getD i 0 = 0 := by
  intro n
  induction n with
  | zero => intro i; simp
  | succ m ih => intro i; cases i with
    | zero => simp [List.replicate]
    | succ j => simp only [List.replicate, List.getD_cons_succ]; exact ih j

theorem tableGet_zeroTable (i : Nat) : tableGet zeroTable i = 0 :=
  getD_replicate_zero 512 i

theorem tableGet_tableSet_self (l : List Nat) (i v : Nat) (h : i < l.length) :
    tableGet (tableSet l i v) i = v := by
  unfold tableGet tableSet
  rw [List.getD_eq_getElem?_getD, List.getElem?_set_self h]
  rfl

theorem reservePage_eq (s : MState) (p' : PPA) (f : Nat)
    (h : PPA.find_and_reserve_page s.ppa = some (p', f)) :
    s.reservePage = some (afterReserve s p' f, f) := by
  rw [MState.reservePage, h]
  rfl

theorem readEntry_afterReserve (s : MState) (p' : PPA) (f g i : Nat) :
    (afterReserve s p' f).readEntry g i =
      if g = f then tableGet zeroTable i else s.readEntry g i := by
  unfold MState.readEntry afterReserve
  dsimp only
  by_cases h : g = f
  · rw [if_pos h, if_pos h]
  · rw [if_neg h, if_neg h]

theorem readEntry_writeEntry (s : MState) (h j v g i : Nat) :
    (s.writeEntry h j v).readEntry g i =
      if g = h then tableGet (tableSet (s.mem h) j v) i else s.readEntry g i := by
  unfold MState.readEntry MState.writeEntry
  dsimp only
  by_cases hc : g = h
  · rw [if_pos hc, if_pos hc]
  · rw [if_neg hc, if_neg hc]

theorem mem_writeEntry (s : MState) (h j v g : Nat) :
    (s.writeEntry h j v).mem g = if g = h then tableSet (s.mem h) j v else s.mem g := by
  unfold MState.writeEntry
  dsimp only

theorem mem_afterReserve (s : MState) (p' : PPA) (f g : Nat) :
    (afterReserve s p' f).mem g = if g = f then zeroTable else s.mem g := by
  unfold afterReserve
  dsimp only

theorem ppa_afterReserve (s : MState) (p' : PPA) (f : Nat) :
    (afterReserve s p' f).ppa = p' := rfl

theorem ppa_writeEntry (s : MState) (h j v : Nat) :
    (s.writeEntry h j v).ppa = s.ppa := rfl

/-- One iteration of the `map_blank_page` walk when the entry is missing
and the reservation succeeds: the child entry is installed (parent levels
get `READ_WRITE_EXECUTE`, the leaf level the computed child flags), the
page counter is incremented, and parent levels are recorded for rewind. -/
theorem mapBlankPageLoop_step (virt cf i : Nat) (rest : List Nat) (cur : Nat)
    (s : MState) (p' : PPA) (pages : Nat) (parents : List Nat) (f : Nat)
    (hread : PageTableEntry.present (s.readEntry cur (levelIndex i virt)) = false)
    (hres : PPA.find_and_reserve_page s.ppa = some (p', f)) :
    UserPageMapper.mapBlankPageLoop virt cf (i :: rest) cur s pages parents =
      UserPageMapper.mapBlankPageLoop virt cf rest
        (PageTableEntry.address ((f &&& ADDR_MASK) |||
          (if i < 3 then PageTableEntry.READ_WRITE_EXECUTE else cf)))
        ((afterReserve s p' f).writeEntry cur (levelIndex i virt)
          ((f &&& ADDR_MASK) ||| (if i < 3 then PageTableEntry.READ_WRITE_EXECUTE else cf)))
        (pages + 1)
        (if i < 3 then parents ++ [f] else parents) := by
  conv_lhs => rw [UserPageMapper.mapBlankPageLoop.eq_def]
  dsimp only
  rw [hread]
  simp only [Bool.false_eq_true, if_false, reservePage_eq s p' f hres]

theorem mapBlankPageLoop_nil (virt cf cur : Nat) (s : MState) (pages : Nat)
    (parents : List Nat) :
    UserPageMapper.mapBlankPageLoop virt cf [] cur s pages parents = .ok s pages := rfl

theorem levelIndex_lt (i virt : Nat) : levelIndex i virt < 512 :=
  Nat.mod_lt _ (by decide)

theorem fresh_read (g i : Nat) : freshMapperM.readEntry g i = 0 := by
  unfold MState.readEntry freshMapperM
  dsimp only
  exact tableGet_zeroTable i

theorem zeroTable_length : zeroTable.length = 512 := by
  show (List.replicate 512 (0 : Nat)).length = 512
  exact List.length_replicate 512 0

namespace PPA

theorem pageIndex_eq (addr : Nat) :
    (addr / byteRatio) * 8 + (addr / PAGE_SIZE) % 8 = addr / 4096 := by
  show (addr / 32768) * 8 + (addr / 4096) % 8 = addr / 4096
  omega

theorem countZerosByte_le (b : Nat) : countZerosByte b ≤ 8 := by
  have he : countZerosByte b =
      (if b.testBit 0 then 0 else 1) + ((if b.testBit 1 then 0 else 1) +
      ((if b.testBit 2 then 0 else 1) + ((if b.testBit 3 then 0 else 1) +
      ((if b.testBit 4 then 0 else 1) + ((if b.testBit 5 then 0 else 1) +
      ((if b.testBit 6 then 0 else 1) + ((if b.testBit 7 then 0 else 1) + 0))))))) := rfl
  rw [he]
  split_ifs <;> omega

theorem countZerosByte_lt (b k : Nat) (hk : k < 8) (hb : b.testBit k = true) :
    countZerosByte b < 8 := by
  have he : countZerosByte b =
      (if b.testBit 0 then 0 else 1) + ((if b.testBit 1 then 0 else 1) +
      ((if b.testBit 2 then 0 else 1) + ((if b.testBit 3 then 0 else 1) +
      ((if b.testBit 4 then 0 else 1) + ((if b.testBit 5 then 0 else 1) +
      ((if b.testBit 6 then 0 else 1) + ((if b.testBit 7 then 0 else 1) + 0))))))) := rfl
  rw [he]
  have h0 : (if b.testBit 0 then (0:Nat) else 1) ≤ 1 := by split <;> omega
  have h1 : (if b.testBit 1 then (0:Nat) else 1) ≤ 1 := by split <;> omega
  have h2 : (if b.testBit 2 then (0:Nat) else 1) ≤ 1 := by split <;> omega
  have h3 : (if b.testBit 3 then (0:Nat) else 1) ≤ 1 := by split <;> omega
  have h4 : (if b.testBit 4 then (0:Nat) else 1) ≤ 1 := by split <;> omega
  have h5 : (if b.testBit 5 then (0:Nat) else 1) ≤ 1 := by split <;> omega
  have h6 : (if b.testBit 6 then (0:Nat) else 1) ≤ 1 := by split <;> omega
  have h7 : (if b.testBit 7 then (0:Nat) else 1) ≤ 1 := by split <;> omega
  have hz : (if (true = true) then (0:Nat) else 1) = 0 := by simp
  interval_cases k <;> rw [hb, hz] <;> omega

theorem countZeros_le (l : List Nat) : countZeros l ≤ 8 * l.length := by
  induction l with
  | nil => simp [countZeros]
  | cons b tl ih =>
    rw [countZeros, List.foldr]
    have := countZerosByte_le b
    have h2 : List.foldr (fun byte acc => countZerosByte byte + acc) 0 tl = countZeros tl := rfl
    rw [h2]
    simp only [List.length_cons]
    omega

theorem countZeros_lt (k : Nat) (hk : k < 8) :
    ∀ (l : List Nat) (byteIdx : Nat), byteIdx < l.length →
      (l.getD byteIdx 0).testBit k = true → countZeros l < 8 * l.length := by
  intro l
  induction l with
  | nil => intro byteIdx hi; simp at hi
  | cons b tl ih =>
    intro byteIdx hi hb
    rw [countZeros, List.foldr]
    have h2 : List.foldr (fun byte acc => countZerosByte byte + acc) 0 tl = countZeros tl := rfl
    rw [h2]
    simp only [List.length_cons]
    cases byteIdx with
    | zero =>
      rw [List.getD_cons_zero] at hb
      have h3 := countZerosByte_lt b k hk hb
      have h4 := countZeros_le tl
      omega
    | succ j =>
      rw [List.getD_cons_succ] at hb
      have h5 := ih j (by simpa using hi) hb
      have h3 := countZerosByte_le b
      omega

theorem set_getD_self : ∀ (l : List Nat) (i : Nat), i < l.length → l.set i (l.getD i 0) = l := by
  intro l
  induction l with
  | nil => intro i h; simp at h
  | cons b tl ih =>
    intro i h
    cases i with
    | zero => simp
    | succ j =>
      simp only [List.getD_cons_succ, List.set_cons_succ, List.cons.injEq, true_and]
      exact ih j (by simpa using h)

set_option maxRecDepth 4000 in
theorem byte_mask_clear :
    ∀ b < 256, ∀ o < 8, b.testBit (7 - o) = false → b &&& (255 - (0x80 >>> o)) = b := by decide

theorem free_page_out_of_range (s : PPA) (addr : Nat) (h : s.total_pages ≤ addr / 4096) :
    s.free_page addr = s := by
  unfold free_page
  dsimp only
  rw [pageIndex_eq, if_pos h]

theorem free_page_in_range_projs (s : PPA) (addr : Nat) (h : addr / 4096 < s.total_pages) :
    (s.free_page addr).free_pages = s.free_pages + 1 ∧
    (s.free_page addr).total_pages = s.total_pages ∧
    (s.free_page addr).memory_bitmap =
      s.memory_bitmap.set (addr / byteRatio)
        ((s.memory_bitmap.getD (addr / byteRatio) 0) &&& (255 - (0x80 >>> ((addr / PAGE_SIZE) % 8)))) := by
  unfold free_page
  dsimp only
  rw [pageIndex_eq, if_neg (Nat.not_le.mpr h)]
  exact ⟨rfl, rfl, rfl⟩

/-- Freeing an in-range page whose bit is already clear leaves the bitmap
unchanged yet still increments `free_pages`. -/
theorem free_page_spurious (s : PPA) (addr : Nat)
    (hidx : addr / 4096 < s.total_pages)
    (hlen : addr / byteRatio < s.memory_bitmap.length)
    (hbyte : s.memory_bitmap.getD (addr / byteRatio) 0 < 256)
    (hbit : (s.memory_bitmap.getD (addr / byteRatio) 0).testBit (7 - (addr / PAGE_SIZE) % 8) = false) :
    (s.free_page addr).memory_bitmap = s.memory_bitmap ∧
    (s.free_page addr).free_pages = s.free_pages + 1 := by
  obtain ⟨h1, _, h3⟩ := free_page_in_range_projs s addr hidx
  refine ⟨?_, h1⟩
  rw [h3, byte_mask_clear _ hbyte _ (Nat.mod_lt _ (by decide)) hbit]
  exact set_getD_self _ _ hlen

theorem find_and_reserve_projs (s s' : PPA) (a : Nat)
    (h : s.find_and_reserve_page = some (s', a)) :
    s'.total_pages = s.total_pages ∧ s'.free_pages = s.free_pages - 1 := by
  unfold find_and_reserve_page at h
  cases hscan : scanReserve s.memory_bitmap with
  | none => rw [hscan] at h; simp at h
  | some triple =>
    rw [hscan] at h
    obtain ⟨bm, bi, oi⟩ := triple
    dsimp only at h
    rw [Option.some_inj, Prod.mk.injEq] at h
    rw [← h.1]
    exact ⟨rfl, rfl⟩

theorem reserve_keeps_identity (s s' : PPA) (a : Nat)
    (h : s.find_and_reserve_page = some (s', a))
    (hid : s.free_pages + s.used_pages = s.total_pages) :
    s'.free_pages + s'.used_pages = s'.total_pages := by
  obtain ⟨ht, hf⟩ := find_and_reserve_projs s s' a h
  unfold used_pages at *
  omega

theorem legit_free_keeps_identity (s : PPA) (addr : Nat)
    (hInv : s.free_pages = countZeros s.memory_bitmap)
    (hTot : s.total_pages = 8 * s.memory_bitmap.length)
    (hidx : addr / 4096 < s.total_pages)
    (hlen : addr / byteRatio < s.memory_bitmap.length)
    (hbit : (s.memory_bitmap.getD (addr / byteRatio) 0).testBit (7 - (addr / PAGE_SIZE) % 8) = true) :
    (s.free_page addr).free_pages + (s.free_page addr).used_pages = (s.free_page addr).total_pages := by
  obtain ⟨h1, h2, _⟩ := free_page_in_range_projs s addr hidx
  have hlt := countZeros_lt (7 - (addr / PAGE_SIZE) % 8) (by omega) s.memory_bitmap _ hlen hbit
  unfold used_pages
  omega

end PPA

end NineX

namespace NineX

/-- Claim C4 (corrected): while a segment's locked flag is true, a second
`start_unmap` on an address inside it returns `SegmentLocked`; a second
`start_try_map_at` touching it returns `SegmentAlreadyExists` (the
`VMAMapError` enum has no locked variant); `start_unmap` on an Empty leaf
returns `SegmentAlreadyUnmapped`; all three error returns leave the tree
unchanged. -/
theorem c4_start_errors_under_lock :
    (∀ (t : VMATree) (fuel addr : Nat) (info : VMATree.LeafInfo) (flags : Nat),
      t.get_leaf_containing addr fuel = some info →
      t.store info.leaf = .LeafUsed flags →
      NodeFlags.locked flags = true →
      start_unmap t fuel addr = some (.error .SegmentLocked, t)) ∧
    (∀ (t : VMATree) (fuel addr : Nat) (info : VMATree.LeafInfo) (sz : Nat),
      t.get_leaf_containing addr fuel = some info →
      t.store info.leaf = .LeafEmpty sz →
      start_unmap t fuel addr = some (.error .SegmentAlreadyUnmapped, t)) ∧
    (∀ (t : VMATree) (fuel : Nat) (seg : Segment) (info : VMATree.LeafInfo),
      t.get_leaf_containing seg.start fuel = some info →
      (info.endAddr < seg.start + seg.len - 1 ∨ t.isUsedLeaf info.leaf = true) →
      start_try_map_at t fuel seg = some (.error .SegmentAlreadyExists, t)) :=
  ⟨start_unmap_locked_of, start_unmap_empty_of, start_try_map_exists_of⟩

/-- Claim C4, witness: the three error returns on concrete trees (a locked
Used leaf over the whole range, and the fresh tree). -/
theorem c4_start_errors_under_lock_witness :
    start_unmap lockedLeafTree 2 0x1800 = some (.error .SegmentLocked, lockedLeafTree) ∧
    start_unmap VMATree.new 2 0x1800 = some (.error .SegmentAlreadyUnmapped, VMATree.new) ∧
    start_try_map_at lockedLeafTree 2
      { start := 0x1800, len := 0x1000, flags := { read := true, write := true, execute := false } } =
      some (.error .SegmentAlreadyExists, lockedLeafTree) :=
  ⟨c4_start_errors_under_lock.1 lockedLeafTree 2 0x1800
      ⟨1, none, 0, HIGHEST_USER_ADDRESS⟩ 0x80000003 (by decide) (by decide) (by decide),
   c4_start_errors_under_lock.2.1 VMATree.new 2 0x1800
      ⟨1, none, 0, HIGHEST_USER_ADDRESS⟩ HIGHEST_USER_ADDRESS (by decide) (by decide),
   c4_start_errors_under_lock.2.2 lockedLeafTree 2
      { start := 0x1800, len := 0x1000, flags := { read := true, write := true, execute := false } }
      ⟨1, none, 0, HIGHEST_USER_ADDRESS⟩ (by decide) (Or.inr (by decide))⟩

/-- Claim C4, counterexample to the original text: `start_try_map_at` over
a locked segment returns `SegmentAlreadyExists`, not `SegmentLocked` (no
such variant exists in `VMAMapError`). -/
theorem c4_map_error_kind_counterexample :
    (start_try_map_at lockedLeafTree 2
      { start := 0x1800, len := 0x1000, flags := { read := true, write := true, execute := false } }).map
        (fun r => r.1) = some (.error .SegmentAlreadyExists) := by decide

/-- Claim C5 (corrected): on a fresh mapper (PML4 in frame 0, everything
else free and zeroed), `map_blank_page` installs every created parent
entry with value `frame ||| 3` — present and writable but NOT
user-accessible (`READ_WRITE_EXECUTE` has `user_accessable: false`) — and
the leaf entry with the requested flags masked to NX/W/R/U plus present
and user-accessible, for every virtual address and flag word. -/
theorem c5_map_blank_page_installed_flags : ∀ virt flags : Nat,
    (UserPageMapper.map_blank_page freshMapperM 0 virt flags 0).1 = .ok () ∧
    (UserPageMapper.map_blank_page freshMapperM 0 virt flags 0).2.2 = 4 ∧
    (UserPageMapper.map_blank_page freshMapperM 0 virt flags 0).2.1.readEntry 0 (levelIndex 0 virt) = 0x1003 ∧
    (UserPageMapper.map_blank_page freshMapperM 0 virt flags 0).2.1.readEntry 0x1000 (levelIndex 1 virt) = 0x2003 ∧
    (UserPageMapper.map_blank_page freshMapperM 0 virt flags 0).2.1.readEntry 0x2000 (levelIndex 2 virt) = 0x3003 ∧
    (UserPageMapper.map_blank_page freshMapperM 0 virt flags 0).2.1.readEntry 0x3000 (levelIndex 3 virt) =
      0x4000 ||| ((flags &&& 0x8000000000000007) ||| 5) := by
  intro virt flags
  set cf := (flags &&& 0x8000000000000007) ||| 5 with hcf
  have find0 : PPA.find_and_reserve_page ⟨[0x80], 8, 7⟩ = some (⟨[0xC0], 8, 6⟩, 0x1000) := by decide
  have find1 : PPA.find_and_reserve_page ⟨[0xC0], 8, 6⟩ = some (⟨[0xE0], 8, 5⟩, 0x2000) := by decide
  have find2 : PPA.find_and_reserve_page ⟨[0xE0], 8, 5⟩ = some (⟨[0xF0], 8, 4⟩, 0x3000) := by decide
  have find3 : PPA.find_and_reserve_page ⟨[0xF0], 8, 4⟩ = some (⟨[0xF8], 8, 3⟩, 0x4000) := by decide
  have pres0 : PageTableEntry.present 0 = false := by decide
  have hr0 : PageTableEntry.present (freshMapperM.readEntry 0 (levelIndex 0 virt)) = false := by
    rw [fresh_read]; exact pres0
  have hppa0 : PPA.find_and_reserve_page freshMapperM.ppa = some (⟨[0xC0], 8, 6⟩, 0x1000) := find0
  have step0 := mapBlankPageLoop_step virt cf 0 [1, 2, 3] 0 freshMapperM ⟨[0xC0], 8, 6⟩ 0 [] 0x1000 hr0 hppa0
  set S1 := (afterReserve freshMapperM ⟨[0xC0], 8, 6⟩ 0x1000).writeEntry 0 (levelIndex 0 virt)
      ((0x1000 &&& ADDR_MASK) ||| (if 0 < 3 then PageTableEntry.READ_WRITE_EXECUTE else cf)) with hS1
  have va0 : ((0x1000 &&& ADDR_MASK) ||| (if (0:Nat) < 3 then PageTableEntry.READ_WRITE_EXECUTE else cf)) = 0x1003 := by
    rw [if_pos (by decide)]; decide
  have addr0 : PageTableEntry.address ((0x1000 &&& ADDR_MASK) ||| (if (0:Nat) < 3 then PageTableEntry.READ_WRITE_EXECUTE else cf)) = 0x1000 := by
    rw [va0]; decide
  have hr1 : PageTableEntry.present (S1.readEntry 0x1000 (levelIndex 1 virt)) = false := by
    rw [hS1, readEntry_writeEntry, if_neg (by decide), readEntry_afterReserve, if_pos rfl,
      tableGet_zeroTable]
    exact pres0
  have hppa1 : PPA.find_and_reserve_page S1.ppa = some (⟨[0xE0], 8, 5⟩, 0x2000) := by
    rw [hS1, ppa_writeEntry, ppa_afterReserve]; exact find1
  have step1 := mapBlankPageLoop_step virt cf 1 [2, 3] 0x1000 S1 ⟨[0xE0], 8, 5⟩ (0 + 1) [0x1000] 0x2000 hr1 hppa1
  set S2 := (afterReserve S1 ⟨[0xE0], 8, 5⟩ 0x2000).writeEntry 0x1000 (levelIndex 1 virt)
      ((0x2000 &&& ADDR_MASK) ||| (if 1 < 3 then PageTableEntry.READ_WRITE_EXECUTE else cf)) with hS2
  have va1 : ((0x2000 &&& ADDR_MASK) ||| (if (1:Nat) < 3 then PageTableEntry.READ_WRITE_EXECUTE else cf)) = 0x2003 := by
    rw [if_pos (by decide)]; decide
  have addr1 : PageTableEntry.address ((0x2000 &&& ADDR_MASK) ||| (if (1:Nat) < 3 then PageTableEntry.READ_WRITE_EXECUTE else cf)) = 0x2000 := by
    rw [va1]; decide
  have hr2 : PageTableEntry.present (S2.readEntry 0x2000 (levelIndex 2 virt)) = false := by
    rw [hS2, readEntry_writeEntry, if_neg (by decide), readEntry_afterReserve, if_pos rfl,
      tableGet_zeroTable]
    exact pres0
  have hppa2 : PPA.find_and_reserve_page S2.ppa = some (⟨[0xF0], 8, 4⟩, 0x3000) := by
    rw [hS2, ppa_writeEntry, ppa_afterReserve]; exact find2
  have step2 := mapBlankPageLoop_step virt cf 2 [3] 0x2000 S2 ⟨[0xF0], 8, 4⟩ (0 + 1 + 1) [0x1000, 0x2000] 0x3000 hr2 hppa2
  set S3 := (afterReserve S2 ⟨[0xF0], 8, 4⟩ 0x3000).writeEntry 0x2000 (levelIndex 2 virt)
      ((0x3000 &&& ADDR_MASK) ||| (if 2 < 3 then PageTableEntry.READ_WRITE_EXECUTE else cf)) with hS3
  have va2 : ((0x3000 &&& ADDR_MASK) ||| (if (2:Nat) < 3 then PageTableEntry.READ_WRITE_EXECUTE else cf)) = 0x3003 := by
    rw [if_pos (by decide)]; decide
  have addr2 : PageTableEntry.address ((0x3000 &&& ADDR_MASK) ||| (if (2:Nat) < 3 then PageTableEntry.READ_WRITE_EXECUTE else cf)) = 0x3000 := by
    rw [va2]; decide
  have hr3 : PageTableEntry.present (S3.readEntry 0x3000 (levelIndex 3 virt)) = false := by
    rw [hS3, readEntry_writeEntry, if_neg (by decide), readEntry_afterReserve, if_pos rfl,
      tableGet_zeroTable]
    exact pres0
  have hppa3 : PPA.find_and_reserve_page S3.ppa = some (⟨[0xF8], 8, 3⟩, 0x4000) := by
    rw [hS3, ppa_writeEntry, ppa_afterReserve]; exact find3
  have step3 := mapBlankPageLoop_step virt cf 3 [] 0x3000 S3 ⟨[0xF8], 8, 3⟩ (0 + 1 + 1 + 1) [0x1000, 0x2000, 0x3000] 0x4000 hr3 hppa3
  set S4 := (afterReserve S3 ⟨[0xF8], 8, 3⟩ 0x4000).writeEntry 0x3000 (levelIndex 3 virt)
      ((0x4000 &&& ADDR_MASK) ||| (if 3 < 3 then PageTableEntry.READ_WRITE_EXECUTE else cf)) with hS4
  have va3 : ((0x4000 &&& ADDR_MASK) ||| (if (3:Nat) < 3 then PageTableEntry.READ_WRITE_EXECUTE else cf)) = 0x4000 ||| cf := by
    rw [if_neg (by decide), show (0x4000 : Nat) &&& ADDR_MASK = 0x4000 from by decide]
  have pr0 : (if (0 : Nat) < 3 then ([] : List Nat) ++ [0x1000] else []) = [0x1000] := by decide
  have pr1 : (if (1 : Nat) < 3 then [0x1000] ++ [0x2000] else [0x1000]) = [0x1000, 0x2000] := by decide
  have pr2 : (if (2 : Nat) < 3 then [0x1000, 0x2000] ++ [0x3000] else [0x1000, 0x2000]) = [0x1000, 0x2000, 0x3000] := by decide
  have hloop : UserPageMapper.mapBlankPageLoop virt cf [0, 1, 2, 3] 0 freshMapperM 0 [] =
      .ok S4 4 := by
    rw [step0, addr0, pr0, step1, addr1, pr1, step2, addr2, pr2, step3]
    rw [mapBlankPageLoop_nil]
  have hmain : UserPageMapper.map_blank_page freshMapperM 0 virt flags 0 = (.ok (), S4, 4) := by
    unfold UserPageMapper.map_blank_page
    dsimp only
    rw [← hcf, hloop]
  rw [hmain]
  refine ⟨rfl, rfl, ?_, ?_, ?_, ?_⟩
  · rw [hS4, readEntry_writeEntry, if_neg (by decide), readEntry_afterReserve, if_neg (by decide),
      hS3, readEntry_writeEntry, if_neg (by decide), readEntry_afterReserve, if_neg (by decide),
      hS2, readEntry_writeEntry, if_neg (by decide), readEntry_afterReserve, if_neg (by decide),
      hS1, readEntry_writeEntry, if_pos rfl, mem_afterReserve, if_neg (by decide)]
    have : freshMapperM.mem 0 = zeroTable := rfl
    rw [this, tableGet_tableSet_self _ _ _ (by rw [zeroTable_length]; exact levelIndex_lt 0 virt), va0]
  · rw [hS4, readEntry_writeEntry, if_neg (by decide), readEntry_afterReserve, if_neg (by decide),
      hS3, readEntry_writeEntry, if_neg (by decide), readEntry_afterReserve, if_neg (by decide),
      hS2, readEntry_writeEntry, if_pos rfl, mem_afterReserve, if_neg (by decide),
      hS1, mem_writeEntry, if_neg (by decide), mem_afterReserve, if_pos rfl]
    rw [tableGet_tableSet_self _ _ _ (by rw [zeroTable_length]; exact levelIndex_lt 1 virt), va1]
  · rw [hS4, readEntry_writeEntry, if_neg (by decide), readEntry_afterReserve, if_neg (by decide),
      hS3, readEntry_writeEntry, if_pos rfl, mem_afterReserve, if_neg (by decide),
      hS2, mem_writeEntry, if_neg (by decide), mem_afterReserve, if_pos rfl]
    rw [tableGet_tableSet_self _ _ _ (by rw [zeroTable_length]; exact levelIndex_lt 2 virt), va2]
  · rw [hS4, readEntry_writeEntry, if_pos rfl, mem_afterReserve, if_neg (by decide),
      hS3, mem_writeEntry, if_neg (by decide), mem_afterReserve, if_pos rfl]
    rw [tableGet_tableSet_self _ _ _ (by rw [zeroTable_length]; exact levelIndex_lt 3 virt), va3]

/-- Claim C5, counterexample to the original text: through the real
construction pipeline, the PML4 entry created for a `READ_WRITE` mapping
of `0x1000` is `0x1003`, whose user-accessible bit is clear — parent
entries are not installed user-accessible. -/
theorem c5_parent_user_bit_counterexample :
    (freshMapper.map fun p =>
      (UserPageMapper.map_blank_page p.1 p.2 0x1000 PageTableEntry.READ_WRITE 0).2.1.readEntry 0 0) =
      some 0x1003 ∧
    PageTableEntry.user_accessable 0x1003 = false ∧
    PageTableEntry.present 0x1003 = true ∧
    PageTableEntry.writable 0x1003 = true := by decide

/-- Claim C6 (corrected): freeing an in-range page whose bit is already
clear leaves the bitmap unchanged but still increments `free_pages`;
freeing at or past the total page count is ignored; the counting identity
`free_pages + used_pages = total_pages` is preserved by every successful
reserve, and by a free of a genuinely reserved in-range page when the
free count matches the bitmap — but not by spurious frees. -/
theorem c6_free_page_semantics :
    (∀ (s : PPA) (addr : Nat),
      addr / 4096 < s.total_pages →
      addr / PPA.byteRatio < s.memory_bitmap.length →
      s.memory_bitmap.getD (addr / PPA.byteRatio) 0 < 256 →
      (s.memory_bitmap.getD (addr / PPA.byteRatio) 0).testBit (7 - (addr / PAGE_SIZE) % 8) = false →
      (s.free_page addr).memory_bitmap = s.memory_bitmap ∧
      (s.free_page addr).free_pages = s.free_pages + 1) ∧
    (∀ (s : PPA) (addr : Nat), s.total_pages ≤ addr / 4096 → s.free_page addr = s) ∧
    (∀ (s s' : PPA) (a : Nat), s.find_and_reserve_page = some (s', a) →
      s.free_pages + s.used_pages = s.total_pages →
      s'.free_pages + s'.used_pages = s'.total_pages) ∧
    (∀ (s : PPA) (addr : Nat),
      s.free_pages = PPA.countZeros s.memory_bitmap →
      s.total_pages = 8 * s.memory_bitmap.length →
      addr / 4096 < s.total_pages →
      addr / PPA.byteRatio < s.memory_bitmap.length →
      (s.memory_bitmap.getD (addr / PPA.byteRatio) 0).testBit (7 - (addr / PAGE_SIZE) % 8) = true →
      (s.free_page addr).free_pages + (s.free_page addr).used_pages = (s.free_page addr).total_pages) :=
  ⟨PPA.free_page_spurious, PPA.free_page_out_of_range, PPA.reserve_keeps_identity,
   PPA.legit_free_keeps_identity⟩

/-- Claim C6, witness: the four statements at concrete allocators (all
eight frames free, and one with frame 0 reserved). -/
theorem c6_free_page_semantics_witness :
    ((allFreePPA.free_page 0).memory_bitmap = allFreePPA.memory_bitmap ∧
      (allFreePPA.free_page 0).free_pages = allFreePPA.free_pages + 1) ∧
    allFreePPA.free_page 0x8000 = allFreePPA ∧
    ((⟨[0xC0], 8, 6⟩ : PPA).free_pages + (⟨[0xC0], 8, 6⟩ : PPA).used_pages =
      (⟨[0xC0], 8, 6⟩ : PPA).total_pages) ∧
    (((⟨[0x80], 8, 7⟩ : PPA).free_page 0).free_pages +
        ((⟨[0x80], 8, 7⟩ : PPA).free_page 0).used_pages =
      ((⟨[0x80], 8, 7⟩ : PPA).free_page 0).total_pages) :=
  ⟨c6_free_page_semantics.1 allFreePPA 0 (by decide) (by decide) (by decide) (by decide),
   c6_free_page_semantics.2.1 allFreePPA 0x8000 (by decide),
   c6_free_page_semantics.2.2.1 ⟨[0x80], 8, 7⟩ ⟨[0xC0], 8, 6⟩ 0x1000 (by decide) (by decide),
   c6_free_page_semantics.2.2.2 ⟨[0x80], 8, 7⟩ 0 (by decide) (by decide) (by decide) (by decide)
     (by decide)⟩

/-- Claim C6, counterexample to the original text: freeing frame 0 of a
fully free eight-frame allocator is not a no-op — the bitmap is unchanged
but `free_pages` rises to 9, and `free_pages + used_pages = total_pages`
fails (9 + 0 ≠ 8). -/
theorem c6_spurious_free_counterexample :
    (allFreePPA.free_page 0).memory_bitmap = allFreePPA.memory_bitmap ∧
    (allFreePPA.free_page 0).free_pages = 9 ∧
    ¬ ((allFreePPA.free_page 0).free_pages + (allFreePPA.free_page 0).used_pages =
        (allFreePPA.free_page 0).total_pages) := by decide

/-- Claim C8 (confirmed): the fresh tree is a single Empty leaf covering
`[0, HIGHEST_USER_ADDRESS]` and every lookup lands in it; in any tree,
`get_leaf_containing` returns a leaf whose range contains the queried
address; and in any tree whose branch pivots respect the bounds inherited
from their ancestors (`checkBounds`, the invariant insert and delete
maintain), two addresses `a < b` land either in the same leaf or in
disjoint ordered leaves. -/
theorem c8_partition_invariant :
    (VMATree.new.root = 1 ∧
      VMATree.new.store 1 = .LeafEmpty HIGHEST_USER_ADDRESS ∧
      ∀ fuel addr : Nat, addr ≤ HIGHEST_USER_ADDRESS →
        VMATree.new.get_leaf_containing addr (fuel + 1) =
          some ⟨1, none, 0, HIGHEST_USER_ADDRESS⟩) ∧
    (∀ (t : VMATree) (fuel addr : Nat) (info : VMATree.LeafInfo),
      addr ≤ HIGHEST_USER_ADDRESS →
      t.get_leaf_containing addr fuel = some info →
      info.start ≤ addr ∧ addr ≤ info.endAddr) ∧
    (∀ (t : VMATree) (fuel a b : Nat) (ia ib : VMATree.LeafInfo),
      VMATree.checkBounds t fuel t.root 0 (HIGHEST_USER_ADDRESS + 1) = true →
      a < b → b ≤ HIGHEST_USER_ADDRESS →
      t.get_leaf_containing a fuel = some ia →
      t.get_leaf_containing b fuel = some ib →
      ia = ib ∨ ia.endAddr < ib.start) := by
  refine ⟨⟨rfl, rfl, ?_⟩, ?_, ?_⟩
  · intro fuel addr _
    rfl
  · intro t fuel addr info hle hg
    unfold VMATree.get_leaf_containing at hg
    exact VMATree.glcGo_covers t addr fuel t.root none 0 (HIGHEST_USER_ADDRESS + 1) info hg
      (Nat.zero_le _) (Nat.lt_succ_of_le hle)
  · intro t fuel a b ia ib hb hab hble h1 h2
    unfold VMATree.get_leaf_containing at h1 h2
    exact VMATree.glcGo_pair t a b fuel t.root none 0 (HIGHEST_USER_ADDRESS + 1) ia ib hb hab h1 h2

/-- Claim C8, witness: the partition statements at concrete inputs on the
fresh tree. -/
theorem c8_partition_invariant_witness :
    VMATree.new.get_leaf_containing 0x1234 40 = some ⟨1, none, 0, HIGHEST_USER_ADDRESS⟩ ∧
    ((⟨1, none, 0, HIGHEST_USER_ADDRESS⟩ : VMATree.LeafInfo).start ≤ 5 ∧
      5 ≤ (⟨1, none, 0, HIGHEST_USER_ADDRESS⟩ : VMATree.LeafInfo).endAddr) ∧
    ((⟨1, none, 0, HIGHEST_USER_ADDRESS⟩ : VMATree.LeafInfo) =
        ⟨1, none, 0, HIGHEST_USER_ADDRESS⟩ ∨
      (⟨1, none, 0, HIGHEST_USER_ADDRESS⟩ : VMATree.LeafInfo).endAddr <
        (⟨1, none, 0, HIGHEST_USER_ADDRESS⟩ : VMATree.LeafInfo).start) :=
  ⟨c8_partition_invariant.1.2.2 39 0x1234 (by decide),
   c8_partition_invariant.2.1 VMATree.new 40 5 ⟨1, none, 0, HIGHEST_USER_ADDRESS⟩
     (by decide) (by decide),
   c8_partition_invariant.2.2 VMATree.new 40 5 7 ⟨1, none, 0, HIGHEST_USER_ADDRESS⟩
     ⟨1, none, 0, HIGHEST_USER_ADDRESS⟩ (by decide) (by decide) (by decide) (by decide) (by decide)⟩

end NineX

namespace NineX

/-- Claim C1 (code bug): after `start_try_map_at` the tentative segment is
a locked Used leaf at `[0x1000, 0x1FFF]`; a successful `MapTask::run`
then DELETES the segment (the lookup at 0x1800 lands in an Empty leaf
covering the whole range) instead of leaving it present and unlocked,
while a failed run (OutOfMemory) KEEPS the locked Used leaf at
`[0x2000, 0x3FFF]` instead of deleting it; `UnmapTask::run` deletes the
segment as specified. -/
theorem c1_task_run_segment_lifecycle :
    (mapTaskStart.bind fun x => (x.2.tree.get_leaf_containing 0x1800 40).map fun i =>
        (x.2.tree.store i.leaf, i.start, i.endAddr)) =
      some (.LeafUsed 0x80000003, 0x1000, 0x1FFF) ∧
    (mapTaskRun.bind fun x => (x.2.2.tree.get_leaf_containing 0x1800 40).map fun i =>
        (x.1, x.2.2.tree.store i.leaf, i.start, i.endAddr)) =
      some (.Ready (.ok 4), .LeafEmpty 0x800000000000, 0, HIGHEST_USER_ADDRESS) ∧
    (mapTaskRunOOM.bind fun x => (x.2.2.tree.get_leaf_containing 0x2800 40).map fun i =>
        (x.1, x.2.2.tree.store i.leaf, i.start, i.endAddr)) =
      some (.Ready (.error .OutOfMemory), .LeafUsed 0x80000003, 0x2000, 0x3FFF) ∧
    (unmapTaskRun.bind fun x => (x.2.2.tree.get_leaf_containing 0x1800 40).map fun i =>
        (x.1, x.2.2.tree.store i.leaf, i.start, i.endAddr)) =
      some (.Ready 0, .LeafEmpty 0x800000000000, 0, HIGHEST_USER_ADDRESS) := by decide

/-- Claim C2 (code bug): `map_blank_page` increments its page counter
before attempting each reservation, so an OutOfMemory run over a fresh
three-free-frame mapper rewinds the bitmap correctly (back to `[0x9F]`,
two frames free) but reports `pages_used = 1`; consequently a failed
`MapMemTask` finishes its rewind with `pages_allocated = 1`, violating
the code's own `debug_assert_eq!(pages_allocated, 0)`, even though the
bitmap (`[0x87]`, four frames free) shows the memory itself was properly
rewound. -/
theorem c2_oom_rewind_counter_leak :
    (oomBlankRun.map fun r => (r.1, r.2.2, r.2.1.ppa.memory_bitmap, r.2.1.ppa.free_pages)) =
      some (.error .OutOfMemory, 1, [0x9F], 2) ∧
    (rewindRun.map fun r => (r.1, r.2.1.pages_allocated, r.2.2.ppa.memory_bitmap, r.2.2.ppa.free_pages)) =
      some (.Ready (.error .OutOfMemory), 1, [0x87], 4) := by decide

/-- Claim C3 (code bug): with pages mapped at 0x1000 and 0x2000 (sharing
the PT in frame 0x3000), `unmap_page(0x1000, 3)` frees 4 frames —
including frame 0x3000, whose bitmap bit is cleared (bitmap `[0x84]`)
while its entry 2 still holds the live mapping `0x8000000000005007` for
0x2000 — because the emptiness scan's result is never consulted; the
upward loop also clears the PML4 entry (`pml4[0] = 0`), orphaning the
still-mapped page. -/
theorem c3_unmap_page_frees_populated_table :
    (unmapRun.map fun p => (p.2, p.1.ppa.memory_bitmap,
        tableGet (p.1.mem 0x3000) 2, tableGet (p.1.mem 0) 0)) =
      some (4, [0x84], 0x8000000000005007, 0) := by decide

set_option maxRecDepth 8000 in
/-- Claim C7 (code bug): `map_mem_copy_from_buffer(0xFFF, 2, buffer)`
with a two-byte buffer crossing a page boundary panics (length-mismatch
in `copy_from_slice`): the per-page copy always takes the full remaining
buffer as the source slice, so any buffer spanning more than one page
hits a destination slice of a different length and never reaches the
second page. -/
theorem c7_multipage_copy_panics :
    (copyRun.map fun r => match r with | .error e => some e | .ok _ => none) =
      some (some .PanicSliceLenMismatch) := by decide

/-- Claim C9 (code bug): after insert 0x1000, delete 0x1000, insert
0x1000, insert 0x3000, delete 0x3000, the temp-sentinel slot (node id 0)
is linked into the tree twice — as the right child of the root branch 8
and as the left child of branch 9 — and branch 9 caches
`max_empty_area_size = 4096` while the true maximum Empty size in its
subtree is `0x7FFFFFFFE000`: the pivot/max-empty invariants do not
survive the sentinel reuse. -/
theorem c9_sentinel_alias_breaks_max_empty :
    (sentinelSeq.map fun t => (t.root, t.store 8, t.store 9, t.store 0)) =
      some (8, .Branch 8193 0x7FFFFFFFE000 none 9 0,
        .Branch 4096 4096 (some 8) 0 6, .LeafEmpty 0x7FFFFFFFE000) ∧
    (sentinelSeq.bind fun t => VMATree.maxEmptyActual t 40 9) = some 0x7FFFFFFFE000 := by decide

set_option maxRecDepth 8000 in
/-- Claim C10 (code bug): with the PML4 in frame 0 and kernel entry 256
holding `0x5003` at construction, `unmap_mem(0x100000, 4096)` follows
non-present parent entries (address 0 — the PML4 itself), lands on
index 256 of the PML4, frees the kernel frame `0x5000` and zeroes the
kernel-half entry: the upper 256 entries are not preserved. -/
theorem c10_unmap_mem_clobbers_kernel_half :
    (mapperAtZero.map fun p => (tableGet (p.1.mem 0) 256, p.2, p.1.ppa.free_pages)) =
      some (0x5003, 0, 7) ∧
    (unmapMemRun.map fun s => (tableGet (s.mem 0) 256, s.ppa.free_pages, s.ppa.memory_bitmap)) =
      some (0, 8, [0x80]) := by decide

end NineX
